import Mathlib

/-!
Verification of the SDF math and render resource manager of the
wgpu-blueprint repository, against its natural-language specification.
Floating point values of the source are embedded as real numbers, machine
integers as naturals; loops become folds or step relations on explicit
state.  Rust f32::min, f32::max and comparisons are mirrored literally
(the source writes them as if-chains in several places, kept as such).
-/

set_option maxHeartbeats 1000000

noncomputable section

/-- Value of the PI constant of src/src/math/lin_alg.rs (an f32 literal). -/
def PI : ℝ := 3.14159265

/-- Two dimensional vector of f32, from src/src/math/lin_alg.rs (Vec2). -/
structure Vec2 where
  x : ℝ
  y : ℝ

instance : Add Vec2 := ⟨fun a b => ⟨a.x + b.x, a.y + b.y⟩⟩

instance : Sub Vec2 := ⟨fun a b => ⟨a.x - b.x, a.y - b.y⟩⟩

instance : HMul Vec2 ℝ Vec2 := ⟨fun v s => ⟨v.x * s, v.y * s⟩⟩

/-- Componentwise characterization of vector addition. -/
theorem Vec2.add_def (a b : Vec2) : a + b = ⟨a.x + b.x, a.y + b.y⟩ := rfl

/-- Componentwise characterization of vector subtraction. -/
theorem Vec2.sub_def (a b : Vec2) : a - b = ⟨a.x - b.x, a.y - b.y⟩ := rfl

/-- Componentwise characterization of the scalar product. -/
theorem Vec2.smul_def (v : Vec2) (s : ℝ) : v * s = ⟨v.x * s, v.y * s⟩ := rfl

/-- Modelled from the spec: Vec2::zero of the vector helper module (the file
holding it is absent from src/); the zero vector. -/
def Vec2.zero : Vec2 := ⟨0, 0⟩

/-- Vec2::magnitude from src/src/math/lin_alg.rs. -/
def Vec2.magnitude (v : Vec2) : ℝ := Real.sqrt (v.x * v.x + v.y * v.y)

/-- Vec2::dot from src/src/math/lin_alg.rs. -/
def Vec2.dot (v w : Vec2) : ℝ := v.x * w.x + v.y * w.y

/-- Modelled from the spec: Vec2::normalize (its source file is absent from
src/); follows the defensive pattern of the sibling Vec3::normalize in
src/src/math/lin_alg.rs lines 586-590, which the spec describes as
normalizing defensively with a zero fallback. -/
def Vec2.normalize (v : Vec2) : Vec2 :=
  let n := v.magnitude
  if n < 0.00001 then ⟨0, 0⟩ else ⟨v.x / n, v.y / n⟩

/-- Rust f32::clamp: restrict a value to the interval from lo to hi. -/
def clampR (v lo hi : ℝ) : ℝ := min (max v lo) hi

/-- Rust f32::to_radians, multiplication by pi over 180 (true pi, as opposed
to the local PI constant used by the matrix builders). -/
def toRadians (deg : ℝ) : ℝ := deg * Real.pi / 180

namespace SdfU

/-- SDFObjectType from src/src/utils/sdf.rs. -/
inductive SDFObjectType where
  | None | Circle | Rectangle | Triangle | RectAngled | Line | Pie
deriving DecidableEq

/-- SDFObject from src/src/utils/sdf.rs. -/
structure SDFObject where
  obj_type : SDFObjectType
  center : Vec2
  radius : ℝ
  rect_size : Vec2
  corner_radius : ℝ
  rot_angle : ℝ
  line_thickness : ℝ
  tri_size : Vec2 × Vec2

/-- Default SDFObject value from src/src/utils/sdf.rs. -/
def SDFObject.default : SDFObject :=
  { obj_type := SDFObjectType.None
    center := Vec2.zero
    radius := 10
    rect_size := Vec2.zero
    corner_radius := 0
    rot_angle := 0
    line_thickness := 0
    tri_size := (Vec2.zero, Vec2.zero) }

/-- SDFObject::circle constructor from src/src/utils/sdf.rs. -/
def SDFObject.circle (pos : Vec2) (r : ℝ) : SDFObject :=
  { SDFObject.default with obj_type := SDFObjectType.Circle, center := pos, radius := r }

/-- SDFObject::rect constructor from src/src/utils/sdf.rs. -/
def SDFObject.rect (pos size : Vec2) (angle : Option ℝ) : SDFObject :=
  match angle with
  | Option.some a =>
      { SDFObject.default with
          obj_type := SDFObjectType.RectAngled, rot_angle := a, center := pos, rect_size := size }
  | Option.none =>
      { SDFObject.default with
          obj_type := SDFObjectType.Rectangle, center := pos, rect_size := size }

/-- SDFObject::triangle constructor from src/src/utils/sdf.rs. -/
def SDFObject.triangle (pos rel_p1 rel_p2 : Vec2) : SDFObject :=
  { SDFObject.default with
      obj_type := SDFObjectType.Triangle, center := pos, tri_size := (rel_p1, rel_p2) }

/-- SDFObject::line constructor from src/src/utils/sdf.rs. -/
def SDFObject.line (p1 p2 : Vec2) (thickness : ℝ) : SDFObject :=
  { SDFObject.default with
      obj_type := SDFObjectType.Line, center := p1, rect_size := p2, line_thickness := thickness }

/-- SDFObject::with_corner from src/src/utils/sdf.rs. -/
def SDFObject.with_corner (s : SDFObject) (radius : ℝ) : SDFObject :=
  { s with corner_radius := radius }

/-- SDFObject::as_line from src/src/utils/sdf.rs. -/
def SDFObject.as_line (s : SDFObject) (thickness : ℝ) : SDFObject :=
  { s with line_thickness := thickness }

/-- signed_dist_to_cir from src/src/utils/sdf.rs. -/
def signed_dist_to_cir (point cir_center : Vec2) (cir_radius : ℝ) : ℝ :=
  (cir_center - point).magnitude - cir_radius

/-- signed_dist_to_rect from src/src/utils/sdf.rs.  The optional rotation
rotates the point into the local frame of the rectangle first; the result
is the usual outer plus clamped inner box distance. -/
def signed_dist_to_rect (point rect_center rect_size : Vec2) (rect_rot : Option ℝ) : ℝ :=
  let rot_p :=
    match rect_rot with
    | Option.some r =>
        let rad := toRadians r
        let px := (point.x - rect_center.x) * Real.cos (-rad)
          - (point.y - rect_center.y) * Real.sin (-rad) + rect_center.x
        let py := (point.y - rect_center.y) * Real.cos (-rad)
          + (point.x - rect_center.x) * Real.sin (-rad) + rect_center.y
        (⟨px, py⟩ : Vec2)
    | Option.none => point
  let ap0 := rot_p - rect_center
  let apx := if ap0.x < 0 then -ap0.x else ap0.x
  let apy := if ap0.y < 0 then -ap0.y else ap0.y
  let d0 : Vec2 := ⟨apx - rect_size.x, apy - rect_size.y⟩
  let dx := if d0.x < 0 then 0 else d0.x
  let dy := if d0.y < 0 then 0 else d0.y
  let outer := (⟨dx, dy⟩ : Vec2).magnitude
  let inner := min (max d0.x d0.y) 0
  outer + inner

/-- signed_dist_to_triangle from src/src/utils/sdf.rs (p0, p1, p2 are
relative to the center). -/
def signed_dist_to_triangle (point center p0 p1 p2 : Vec2) : ℝ :=
  let np := point - center
  let e0 := p1 - p0
  let v0 := np - p0
  let d0 := v0 - e0 * clampR (v0.dot e0 / e0.dot e0) 0 1
  let d0d := d0.dot d0
  let e1 := p2 - p1
  let v1 := np - p1
  let d1 := v1 - e1 * clampR (v1.dot e1 / e1.dot e1) 0 1
  let d1d := d1.dot d1
  let e2 := p0 - p2
  let v2 := np - p2
  let d2 := v2 - e2 * clampR (v2.dot e2 / e2.dot e2) 0 1
  let d2d := d2.dot d2
  let o := e0.x * e2.y - e0.y * e2.x
  let y0 := o * (v0.x * e0.y - v0.y * e0.x)
  let y1 := o * (v1.x * e1.y - v1.y * e1.x)
  let y2 := o * (v2.x * e2.y - v2.y * e2.x)
  let m1 := if d1d < d0d then d1d else d0d
  let min_d := if d2d < m1 then d2d else m1
  let n1 := if y1 < y0 then y1 else y0
  let min_y := if y2 < n1 then y2 else n1
  let sign : ℝ := if min_y > 0 then -1 else 1
  Real.sqrt min_d * sign

/-- signed_dist_to_line from src/src/utils/sdf.rs. -/
def signed_dist_to_line (point p0 p1 : Vec2) : ℝ :=
  let pa := point - p0
  let ba := p1 - p0
  let h := clampR (pa.dot ba / ba.dot ba) 0 1
  (pa - ba * h).magnitude

/-- signed_dist_with_corner from src/src/utils/sdf.rs. -/
def signed_dist_with_corner (sd radius : ℝ) : ℝ := sd - radius

/-- signed_dist_as_border from src/src/utils/sdf.rs. -/
def signed_dist_as_border (sd thickness : ℝ) : ℝ := |sd| - thickness

/-- Per-object distance of the calculate_sdf loop body in
src/src/utils/sdf.rs lines 183-208: the base distance dispatched on the
type tag (max_dist for tags without an arm), then the corner modifier when
corner_radius is positive, then the border modifier when line_thickness is
positive. -/
def objModDist (max_dist : ℝ) (p : Vec2) (o : SDFObject) : ℝ :=
  let d :=
    match o.obj_type with
    | SDFObjectType.Circle => signed_dist_to_cir p o.center o.radius
    | SDFObjectType.Rectangle => signed_dist_to_rect p o.center o.rect_size Option.none
    | SDFObjectType.RectAngled => signed_dist_to_rect p o.center o.rect_size (Option.some o.rot_angle)
    | SDFObjectType.Triangle =>
        signed_dist_to_triangle p o.center ⟨0, 0⟩ o.tri_size.1 o.tri_size.2
    | SDFObjectType.Line => signed_dist_to_line p o.center o.rect_size
    | _ => max_dist
  let d1 := if o.corner_radius > 0 then signed_dist_with_corner d o.corner_radius else d
  if o.line_thickness > 0 then signed_dist_as_border d1 o.line_thickness else d1

/-- calculate_sdf from src/src/utils/sdf.rs: fold the loop body over the
object list starting from max_dist, keeping the smaller value each step. -/
def calculate_sdf (p : Vec2) (max_dist : ℝ) (objs : List SDFObject) : ℝ :=
  objs.foldl (fun sdf obj =>
    let d := objModDist max_dist p obj
    if d < sdf then d else sdf) max_dist

end SdfU

/-- Spec-side modified signed distance for one object, written from the words
of the claim: the base distance for the five shape tags, with the corner
modifier (d minus corner_radius) applied first when corner_radius is
positive and then the border modifier (absolute d minus line_thickness)
when line_thickness is positive.  Tags outside the five shapes are not
covered by the claim and are mapped to 0. -/
def specModifiedDist (p : Vec2) (o : SdfU.SDFObject) : ℝ :=
  let base :=
    match o.obj_type with
    | SdfU.SDFObjectType.Circle => SdfU.signed_dist_to_cir p o.center o.radius
    | SdfU.SDFObjectType.Rectangle => SdfU.signed_dist_to_rect p o.center o.rect_size Option.none
    | SdfU.SDFObjectType.RectAngled =>
        SdfU.signed_dist_to_rect p o.center o.rect_size (Option.some o.rot_angle)
    | SdfU.SDFObjectType.Triangle =>
        SdfU.signed_dist_to_triangle p o.center ⟨0, 0⟩ o.tri_size.1 o.tri_size.2
    | SdfU.SDFObjectType.Line => SdfU.signed_dist_to_line p o.center o.rect_size
    | _ => 0
  let withCorner := if o.corner_radius > 0 then base - o.corner_radius else base
  if o.line_thickness > 0 then |withCorner| - o.line_thickness else withCorner

/-- An object carries one of the five shape tags of the claim. -/
def isShapeTag (o : SdfU.SDFObject) : Prop :=
  o.obj_type ≠ SdfU.SDFObjectType.None ∧ o.obj_type ≠ SdfU.SDFObjectType.Pie

/-- On the five shape tags the loop body of calculate_sdf computes exactly
the modified distance described by the spec. -/
theorem objModDist_eq_spec (max_dist : ℝ) (p : Vec2) (o : SdfU.SDFObject)
    (h : isShapeTag o) : SdfU.objModDist max_dist p o = specModifiedDist p o := by
  obtain ⟨h1, h2⟩ := h
  cases ht : o.obj_type <;>
    simp_all [SdfU.objModDist, specModifiedDist, SdfU.signed_dist_with_corner,
      SdfU.signed_dist_as_border]

/-- The foldl of the running-minimum loop never exceeds its initial value. -/
theorem foldl_min_le_init (f : SdfU.SDFObject → ℝ) (objs : List SdfU.SDFObject) (init : ℝ) :
    objs.foldl (fun sdf obj => let d := f obj; if d < sdf then d else sdf) init ≤ init := by
  induction objs generalizing init with
  | nil => simp
  | cons o rest ih =>
      simp only [List.foldl_cons]
      by_cases hd : f o < init
      · simp only [hd, if_pos]
        exact le_trans (ih (f o)) (le_of_lt hd)
      · simp only [hd, if_neg, if_false]
        exact ih init

/-- The foldl of the running-minimum loop is bounded by every member value. -/
theorem foldl_min_le_mem (f : SdfU.SDFObject → ℝ) (objs : List SdfU.SDFObject) (init : ℝ)
    (o : SdfU.SDFObject) (ho : o ∈ objs) :
    objs.foldl (fun sdf obj => let d := f obj; if d < sdf then d else sdf) init ≤ f o := by
  induction objs generalizing init with
  | nil => cases ho
  | cons a rest ih =>
      simp only [List.foldl_cons]
      rcases List.mem_cons.mp ho with h | h
      · subst h
        by_cases hd : f o < init
        · simp only [hd, if_pos]
          exact foldl_min_le_init f rest (f o)
        · simp only [hd, if_neg, if_false]
          exact le_trans (foldl_min_le_init f rest init) (not_lt.mp hd)
      · by_cases hd : f a < init
        · simp only [hd, if_pos]; exact ih (f a) h
        · simp only [hd, if_neg, if_false]; exact ih init h

/-- The foldl of the running-minimum loop returns its initial value or the
value of some member. -/
theorem foldl_min_eq_init_or_mem (f : SdfU.SDFObject → ℝ) (objs : List SdfU.SDFObject)
    (init : ℝ) :
    objs.foldl (fun sdf obj => let d := f obj; if d < sdf then d else sdf) init = init ∨
      ∃ o ∈ objs, objs.foldl (fun sdf obj => let d := f obj; if d < sdf then d else sdf) init = f o := by
  induction objs generalizing init with
  | nil => exact Or.inl rfl
  | cons a rest ih =>
      simp only [List.foldl_cons]
      by_cases hd : f a < init
      · simp only [hd, if_pos]
        rcases ih (f a) with h | ⟨o, ho, h⟩
        · exact Or.inr ⟨a, List.mem_cons_self a rest, h⟩
        · exact Or.inr ⟨o, List.mem_cons_of_mem a ho, h⟩
      · simp only [hd, if_neg, if_false]
        rcases ih init with h | ⟨o, ho, h⟩
        · exact Or.inl h
        · exact Or.inr ⟨o, List.mem_cons_of_mem a ho, h⟩

/-- Claim C1: for every point, max_dist and list of SDF objects (carrying the
five shape tags of the claim), calculate_sdf returns the minimum of max_dist
and the modified signed distances of the objects, where the modified
distance applies the corner modifier first (when corner_radius is positive)
and then the border modifier (when line_thickness is positive); for the
empty list the result is exactly max_dist.  Stated as the greatest-lower-
bound characterization of that minimum. -/
theorem C1_calculate_sdf_min (p : Vec2) (max_dist : ℝ) (objs : List SdfU.SDFObject)
    (h : ∀ o ∈ objs, isShapeTag o) :
    SdfU.calculate_sdf p max_dist objs ≤ max_dist ∧
    (∀ o ∈ objs, SdfU.calculate_sdf p max_dist objs ≤ specModifiedDist p o) ∧
    (SdfU.calculate_sdf p max_dist objs = max_dist ∨
      ∃ o ∈ objs, SdfU.calculate_sdf p max_dist objs = specModifiedDist p o) ∧
    (objs = [] → SdfU.calculate_sdf p max_dist objs = max_dist) := by
  have hrw : SdfU.calculate_sdf p max_dist objs =
      objs.foldl (fun sdf obj =>
        let d := SdfU.objModDist max_dist p obj
        if d < sdf then d else sdf) max_dist := rfl
  refine ⟨?_, ?_, ?_, ?_⟩
  · rw [hrw]; exact foldl_min_le_init _ objs max_dist
  · intro o ho
    rw [hrw, ← objModDist_eq_spec max_dist p o (h o ho)]
    exact foldl_min_le_mem _ objs max_dist o ho
  · rw [hrw]
    rcases foldl_min_eq_init_or_mem (SdfU.objModDist max_dist p) objs max_dist with hh | ⟨o, ho, hh⟩
    · exact Or.inl hh
    · exact Or.inr ⟨o, ho, by rw [hh, objModDist_eq_spec max_dist p o (h o ho)]⟩
  · intro he; subst he; rfl

/-- Witness for claim C1 at a concrete input: a single circle at distance
five from the query point, inside search radius 100. -/
theorem C1_calculate_sdf_min_witness :
    SdfU.calculate_sdf ⟨0, 0⟩ 100 [SdfU.SDFObject.circle ⟨3, 4⟩ 1] ≤ 100 := by
  refine (C1_calculate_sdf_min ⟨0, 0⟩ 100 [SdfU.SDFObject.circle ⟨3, 4⟩ 1] ?_).1
  intro o ho
  simp only [List.mem_singleton] at ho
  subst ho
  exact ⟨by simp [SdfU.SDFObject.circle, SdfU.SDFObject.default],
    by simp [SdfU.SDFObject.circle, SdfU.SDFObject.default]⟩

/-- Three dimensional vector of f32, from src/src/math/lin_alg.rs (Vec3). -/
structure Vec3 where
  x : ℝ
  y : ℝ
  z : ℝ

instance : Sub Vec3 := ⟨fun a b => ⟨a.x - b.x, a.y - b.y, a.z - b.z⟩⟩

/-- Vec3::dot from src/src/math/lin_alg.rs. -/
def Vec3.dot (v w : Vec3) : ℝ := v.x * w.x + v.y * w.y + v.z * w.z

/-- Vec3::cross from src/src/math/lin_alg.rs. -/
def Vec3.cross (v w : Vec3) : Vec3 :=
  ⟨v.y * w.z - v.z * w.y, v.z * w.x - v.x * w.z, v.x * w.y - v.y * w.x⟩

/-- Vec3::magnitude from src/src/math/lin_alg.rs. -/
def Vec3.magnitude (v : Vec3) : ℝ := Real.sqrt (v.x * v.x + v.y * v.y + v.z * v.z)

/-- Vec3::normalize from src/src/math/lin_alg.rs lines 586-590: defensive
normalization, returning the zero vector when the magnitude is below the
0.00001 threshold. -/
def Vec3.normalize (v : Vec3) : Vec3 :=
  let n := v.magnitude
  if n < 0.00001 then ⟨0, 0, 0⟩ else ⟨v.x / n, v.y / n, v.z / n⟩

/-- Flat array of sixteen f32 values, as returned by the Mat4 transform
builders of src/src/math/lin_alg.rs; index k of the flat array is field xk. -/
@[ext] structure M16 where
  x0 : ℝ
  x1 : ℝ
  x2 : ℝ
  x3 : ℝ
  x4 : ℝ
  x5 : ℝ
  x6 : ℝ
  x7 : ℝ
  x8 : ℝ
  x9 : ℝ
  x10 : ℝ
  x11 : ℝ
  x12 : ℝ
  x13 : ℝ
  x14 : ℝ
  x15 : ℝ

/-- Mat4::identity().as_col_major_array() from src/src/math/lin_alg.rs: the
flat identity matrix. -/
def identityM : M16 := ⟨1, 0, 0, 0, 0, 1, 0, 0, 0, 0, 1, 0, 0, 0, 0, 1⟩

/-- Mat4::translate from src/src/math/lin_alg.rs. -/
def M16.translate (x y z : ℝ) : M16 :=
  ⟨1, 0, 0, 0, 0, 1, 0, 0, 0, 0, 1, 0, x, y, z, 1⟩

/-- Mat4::scale from src/src/math/lin_alg.rs. -/
def M16.scale (x y z : ℝ) : M16 :=
  ⟨x, 0, 0, 0, 0, y, 0, 0, 0, 0, z, 0, 0, 0, 0, 1⟩

/-- Mat4::ortho from src/src/math/lin_alg.rs. -/
def M16.ortho (left right top bottom near far : ℝ) : M16 :=
  let a := 2 / (right - left)
  let b := 2 / (top - bottom)
  let c := 1 / (near - far)
  let d := (right + left) / (left - right)
  let e := (top + bottom) / (bottom - top)
  let f := near / (near - far)
  ⟨a, 0, 0, 0, 0, b, 0, 0, 0, 0, c, 0, d, e, f, 1⟩

/-- Mat4::perspective from src/src/math/lin_alg.rs. -/
def M16.perspective (fov_y aspect_ratio near far : ℝ) : M16 :=
  let f := Real.tan (PI * 0.5 - 0.5 * fov_y * PI / 180)
  let range := 1 / (near - far)
  let a := f / aspect_ratio
  let c := far * range
  let d := near * far * range
  ⟨a, 0, 0, 0, 0, f, 0, 0, 0, 0, c, -1, 0, 0, d, 0⟩

/-- Mat4::rotate from src/src/math/lin_alg.rs lines 292-323: Rodrigues
rotation of the defensively normalized axis, angle in degrees converted
with the local PI constant. -/
def M16.rotate (axis : Vec3) (deg : ℝ) : M16 :=
  let n := axis.normalize
  let xx := n.x * n.x
  let yy := n.y * n.y
  let zz := n.z * n.z
  let c := Real.cos (deg * PI / 180)
  let s := Real.sin (deg * PI / 180)
  let o := 1 - c
  ⟨xx + (1 - xx) * c, n.x * n.y * o + n.z * s, n.x * n.z * o - n.y * s, 0,
   n.x * n.y * o - n.z * s, yy + (1 - yy) * c, n.y * n.z * o + n.x * s, 0,
   n.x * n.z * o + n.y * s, n.y * n.z * o - n.x * s, zz + (1 - zz) * c, 0,
   0, 0, 0, 1⟩

/-- Mat4::rotate_euler from src/src/math/lin_alg.rs. -/
def M16.rotate_euler (roll pitch yaw : ℝ) : M16 :=
  let a := roll * PI / 180
  let cosa := Real.cos a
  let sina := Real.sin a
  let b := pitch * PI / 180
  let cosb := Real.cos b
  let sinb := Real.sin b
  let c := yaw * PI / 180
  let cosc := Real.cos c
  let sinc := Real.sin c
  ⟨cosb * cosc, cosb * sinc, -sinb, 0,
   sina * sinb * cosc - cosa * sinc, sina * sinb * sinc + cosa * cosc, sina * cosb, 0,
   cosa * sinb * cosc + sina * sinc, cosa * sinb * sinc - sina * cosc, cosa * cosb, 0,
   0, 0, 0, 1⟩

/-- Mat4::view_rot from src/src/math/lin_alg.rs. -/
def M16.view_rot (cam target up : Vec3) : M16 :=
  let fwd := (cam - target).normalize
  let right := (up.cross fwd).normalize
  let n_up := (fwd.cross right).normalize
  ⟨right.x, n_up.x, fwd.x, 0,
   right.y, n_up.y, fwd.y, 0,
   right.z, n_up.z, fwd.z, 0,
   0, 0, 0, 1⟩

/-- Mat4::multiply from src/src/math/lin_alg.rs: the flat sixteen-entry
product, each destination entry written as in the source. -/
def M16.multiply (a b : M16) : M16 where
  x0 := a.x0 * b.x0 + a.x4 * b.x1 + a.x8 * b.x2 + a.x12 * b.x3
  x1 := a.x1 * b.x0 + a.x5 * b.x1 + a.x9 * b.x2 + a.x13 * b.x3
  x2 := a.x2 * b.x0 + a.x6 * b.x1 + a.x10 * b.x2 + a.x14 * b.x3
  x3 := a.x3 * b.x0 + a.x7 * b.x1 + a.x11 * b.x2 + a.x15 * b.x3
  x4 := a.x0 * b.x4 + a.x4 * b.x5 + a.x8 * b.x6 + a.x12 * b.x7
  x5 := a.x1 * b.x4 + a.x5 * b.x5 + a.x9 * b.x6 + a.x13 * b.x7
  x6 := a.x2 * b.x4 + a.x6 * b.x5 + a.x10 * b.x6 + a.x14 * b.x7
  x7 := a.x3 * b.x4 + a.x7 * b.x5 + a.x11 * b.x6 + a.x15 * b.x7
  x8 := a.x0 * b.x8 + a.x4 * b.x9 + a.x8 * b.x10 + a.x12 * b.x11
  x9 := a.x1 * b.x8 + a.x5 * b.x9 + a.x9 * b.x10 + a.x13 * b.x11
  x10 := a.x2 * b.x8 + a.x6 * b.x9 + a.x10 * b.x10 + a.x14 * b.x11
  x11 := a.x3 * b.x8 + a.x7 * b.x9 + a.x11 * b.x10 + a.x15 * b.x11
  x12 := a.x0 * b.x12 + a.x4 * b.x13 + a.x8 * b.x14 + a.x12 * b.x15
  x13 := a.x1 * b.x12 + a.x5 * b.x13 + a.x9 * b.x14 + a.x13 * b.x15
  x14 := a.x2 * b.x12 + a.x6 * b.x13 + a.x10 * b.x14 + a.x14 * b.x15
  x15 := a.x3 * b.x12 + a.x7 * b.x13 + a.x11 * b.x14 + a.x15 * b.x15

/-- determinant_3x3 from src/src/math/lin_alg.rs, on its nine entries. -/
def det3 (m0 m1 m2 m3 m4 m5 m6 m7 m8 : ℝ) : ℝ :=
  m0 * (m4 * m8 - m5 * m7) - m1 * (m3 * m8 - m5 * m6) + m2 * (m3 * m7 - m4 * m6)

/-- cofactor_4x4 from src/src/math/lin_alg.rs: signed 3x3 minors of the
flat array, the submatrix-collecting loop unrolled; cofNM is the minor
skipping row N and column M of the row-major index pairs. -/
def M16.cof00 (m : M16) : ℝ := det3 m.x5 m.x6 m.x7 m.x9 m.x10 m.x11 m.x13 m.x14 m.x15

def M16.cof01 (m : M16) : ℝ := -det3 m.x4 m.x6 m.x7 m.x8 m.x10 m.x11 m.x12 m.x14 m.x15

def M16.cof02 (m : M16) : ℝ := det3 m.x4 m.x5 m.x7 m.x8 m.x9 m.x11 m.x12 m.x13 m.x15

def M16.cof03 (m : M16) : ℝ := -det3 m.x4 m.x5 m.x6 m.x8 m.x9 m.x10 m.x12 m.x13 m.x14

def M16.cof10 (m : M16) : ℝ := -det3 m.x1 m.x2 m.x3 m.x9 m.x10 m.x11 m.x13 m.x14 m.x15

def M16.cof11 (m : M16) : ℝ := det3 m.x0 m.x2 m.x3 m.x8 m.x10 m.x11 m.x12 m.x14 m.x15

def M16.cof12 (m : M16) : ℝ := -det3 m.x0 m.x1 m.x3 m.x8 m.x9 m.x11 m.x12 m.x13 m.x15

def M16.cof13 (m : M16) : ℝ := det3 m.x0 m.x1 m.x2 m.x8 m.x9 m.x10 m.x12 m.x13 m.x14

def M16.cof20 (m : M16) : ℝ := det3 m.x1 m.x2 m.x3 m.x5 m.x6 m.x7 m.x13 m.x14 m.x15

def M16.cof21 (m : M16) : ℝ := -det3 m.x0 m.x2 m.x3 m.x4 m.x6 m.x7 m.x12 m.x14 m.x15

def M16.cof22 (m : M16) : ℝ := det3 m.x0 m.x1 m.x3 m.x4 m.x5 m.x7 m.x12 m.x13 m.x15

def M16.cof23 (m : M16) : ℝ := -det3 m.x0 m.x1 m.x2 m.x4 m.x5 m.x6 m.x12 m.x13 m.x14

def M16.cof30 (m : M16) : ℝ := -det3 m.x1 m.x2 m.x3 m.x5 m.x6 m.x7 m.x9 m.x10 m.x11

def M16.cof31 (m : M16) : ℝ := det3 m.x0 m.x2 m.x3 m.x4 m.x6 m.x7 m.x8 m.x10 m.x11

def M16.cof32 (m : M16) : ℝ := -det3 m.x0 m.x1 m.x3 m.x4 m.x5 m.x7 m.x8 m.x9 m.x11

def M16.cof33 (m : M16) : ℝ := det3 m.x0 m.x1 m.x2 m.x4 m.x5 m.x6 m.x8 m.x9 m.x10

/-- determinant_4x4 from src/src/math/lin_alg.rs: cofactor expansion along
the first four entries of the flat array. -/
def M16.det4 (m : M16) : ℝ :=
  m.x0 * m.cof00 + m.x1 * m.cof01 + m.x2 * m.cof02 + m.x3 * m.cof03

/-- adjugate_4x4 from src/src/math/lin_alg.rs: entry j*4+i of the result is
the (i, j) cofactor. -/
def M16.adjugate (m : M16) : M16 :=
  ⟨m.cof00, m.cof10, m.cof20, m.cof30,
   m.cof01, m.cof11, m.cof21, m.cof31,
   m.cof02, m.cof12, m.cof22, m.cof32,
   m.cof03, m.cof13, m.cof23, m.cof33⟩

/-- Mat4::inverse from src/src/math/lin_alg.rs lines 462-477: the identity
matrix when the determinant is zero (a warning is printed, no error), and
otherwise every entry of the adjugate divided by the determinant. -/
def M16.inverse (m : M16) : M16 :=
  if m.det4 = 0 then identityM
  else
    let adj := m.adjugate
    let det := m.det4
    ⟨adj.x0 / det, adj.x1 / det, adj.x2 / det, adj.x3 / det,
     adj.x4 / det, adj.x5 / det, adj.x6 / det, adj.x7 / det,
     adj.x8 / det, adj.x9 / det, adj.x10 / det, adj.x11 / det,
     adj.x12 / det, adj.x13 / det, adj.x14 / det, adj.x15 / det⟩
/-- Laplace and alien-cofactor expansions of the flat 4x4 determinant:
summing entries of column r of the row-major pairs against the cofactors
of column blk gives the determinant when r equals blk and zero otherwise. -/
theorem M16.cof_expand (m : M16) :
    (m.x0 * m.cof00 + m.x4 * m.cof10 + m.x8 * m.cof20 + m.x12 * m.cof30 = m.det4) ∧
    (m.x1 * m.cof00 + m.x5 * m.cof10 + m.x9 * m.cof20 + m.x13 * m.cof30 = 0) ∧
    (m.x2 * m.cof00 + m.x6 * m.cof10 + m.x10 * m.cof20 + m.x14 * m.cof30 = 0) ∧
    (m.x3 * m.cof00 + m.x7 * m.cof10 + m.x11 * m.cof20 + m.x15 * m.cof30 = 0) ∧
    (m.x0 * m.cof01 + m.x4 * m.cof11 + m.x8 * m.cof21 + m.x12 * m.cof31 = 0) ∧
    (m.x1 * m.cof01 + m.x5 * m.cof11 + m.x9 * m.cof21 + m.x13 * m.cof31 = m.det4) ∧
    (m.x2 * m.cof01 + m.x6 * m.cof11 + m.x10 * m.cof21 + m.x14 * m.cof31 = 0) ∧
    (m.x3 * m.cof01 + m.x7 * m.cof11 + m.x11 * m.cof21 + m.x15 * m.cof31 = 0) ∧
    (m.x0 * m.cof02 + m.x4 * m.cof12 + m.x8 * m.cof22 + m.x12 * m.cof32 = 0) ∧
    (m.x1 * m.cof02 + m.x5 * m.cof12 + m.x9 * m.cof22 + m.x13 * m.cof32 = 0) ∧
    (m.x2 * m.cof02 + m.x6 * m.cof12 + m.x10 * m.cof22 + m.x14 * m.cof32 = m.det4) ∧
    (m.x3 * m.cof02 + m.x7 * m.cof12 + m.x11 * m.cof22 + m.x15 * m.cof32 = 0) ∧
    (m.x0 * m.cof03 + m.x4 * m.cof13 + m.x8 * m.cof23 + m.x12 * m.cof33 = 0) ∧
    (m.x1 * m.cof03 + m.x5 * m.cof13 + m.x9 * m.cof23 + m.x13 * m.cof33 = 0) ∧
    (m.x2 * m.cof03 + m.x6 * m.cof13 + m.x10 * m.cof23 + m.x14 * m.cof33 = 0) ∧
    (m.x3 * m.cof03 + m.x7 * m.cof13 + m.x11 * m.cof23 + m.x15 * m.cof33 = m.det4) := by
  refine ⟨?_, ?_, ?_, ?_, ?_, ?_, ?_, ?_, ?_, ?_, ?_, ?_, ?_, ?_, ?_, ?_⟩ <;>
  · simp only [M16.cof00, M16.cof01, M16.cof02, M16.cof03, M16.cof10, M16.cof11, M16.cof12, M16.cof13, M16.cof20, M16.cof21, M16.cof22, M16.cof23, M16.cof30, M16.cof31, M16.cof32, M16.cof33, M16.det4, det3]
    ring

/-- Four-term sum of scaled quotients collected over the common divisor. -/
theorem sum4_div (a b c d e f g h dt : ℝ) :
    a * (b / dt) + c * (d / dt) + e * (f / dt) + g * (h / dt) =
      (a * b + c * d + e * f + g * h) / dt := by
  ring

/-- Claim C8: Mat4::inverse never raises an error: on every flat input whose
cofactor-expansion determinant is zero it returns the identity matrix (the
source only prints a warning), and on nonzero determinant it returns the
adjugate divided by the determinant, which is then a genuine right inverse
under Mat4::multiply. -/
theorem C8_inverse_behaviour (m : M16) :
    (m.det4 = 0 → m.inverse = identityM) ∧
    (m.det4 ≠ 0 →
      m.inverse =
        ⟨m.adjugate.x0 / m.det4, m.adjugate.x1 / m.det4, m.adjugate.x2 / m.det4,
         m.adjugate.x3 / m.det4, m.adjugate.x4 / m.det4, m.adjugate.x5 / m.det4,
         m.adjugate.x6 / m.det4, m.adjugate.x7 / m.det4, m.adjugate.x8 / m.det4,
         m.adjugate.x9 / m.det4, m.adjugate.x10 / m.det4, m.adjugate.x11 / m.det4,
         m.adjugate.x12 / m.det4, m.adjugate.x13 / m.det4, m.adjugate.x14 / m.det4,
         m.adjugate.x15 / m.det4⟩ ∧
      M16.multiply m m.inverse = identityM) := by
  constructor
  · intro h
    simp [M16.inverse, h]
  · intro h
    have hinv : m.inverse =
        ⟨m.adjugate.x0 / m.det4, m.adjugate.x1 / m.det4, m.adjugate.x2 / m.det4,
         m.adjugate.x3 / m.det4, m.adjugate.x4 / m.det4, m.adjugate.x5 / m.det4,
         m.adjugate.x6 / m.det4, m.adjugate.x7 / m.det4, m.adjugate.x8 / m.det4,
         m.adjugate.x9 / m.det4, m.adjugate.x10 / m.det4, m.adjugate.x11 / m.det4,
         m.adjugate.x12 / m.det4, m.adjugate.x13 / m.det4, m.adjugate.x14 / m.det4,
         m.adjugate.x15 / m.det4⟩ := by simp [M16.inverse, h]
    refine ⟨hinv, ?_⟩
    obtain ⟨e0, e1, e2, e3, e4, e5, e6, e7, e8, e9, e10, e11, e12, e13, e14, e15⟩ :=
      M16.cof_expand m
    rw [hinv]
    apply M16.ext <;>
      simp only [M16.multiply, M16.adjugate, identityM, sum4_div]
    · rw [e0]; exact div_self h
    · rw [e1]; exact zero_div _
    · rw [e2]; exact zero_div _
    · rw [e3]; exact zero_div _
    · rw [e4]; exact zero_div _
    · rw [e5]; exact div_self h
    · rw [e6]; exact zero_div _
    · rw [e7]; exact zero_div _
    · rw [e8]; exact zero_div _
    · rw [e9]; exact zero_div _
    · rw [e10]; exact div_self h
    · rw [e11]; exact zero_div _
    · rw [e12]; exact zero_div _
    · rw [e13]; exact zero_div _
    · rw [e14]; exact zero_div _
    · rw [e15]; exact div_self h

/-- Zero matrix, a concrete singular input for the claim C8 witness. -/
def zeroM : M16 := ⟨0, 0, 0, 0, 0, 0, 0, 0, 0, 0, 0, 0, 0, 0, 0, 0⟩

/-- Witness for claim C8: the zero matrix has determinant zero and
Mat4::inverse maps it to the identity matrix. -/
theorem C8_inverse_behaviour_witness :
    zeroM.det4 = 0 ∧ zeroM.inverse = identityM := by
  have hz : zeroM.det4 = 0 := by
    simp [zeroM, M16.det4, M16.cof00, M16.cof01, M16.cof02, M16.cof03, det3]
  exact ⟨hz, (C8_inverse_behaviour zeroM).1 hz⟩

/-- Mat4::rotate from src/src/renderer/lin_alg.rs lines 113-147, the
generation without the defensive threshold: the axis components are
divided by the raw magnitude before the Rodrigues formula. In Rust f32 a
zero axis makes these divisions 0.0/0.0 and fills the matrix with NaN
entries; the reals have no NaN, so the embedding returns failure exactly
when that divisor is zero and the Rodrigues matrix otherwise. -/
def M16R.rotate (axis : Vec3) (deg : ℝ) : Option M16 :=
  let n := Real.sqrt (axis.x * axis.x + axis.y * axis.y + axis.z * axis.z)
  if n = 0 then Option.none else
  let x := axis.x / n
  let y := axis.y / n
  let z := axis.z / n
  let xx := x * x
  let yy := y * y
  let zz := z * z
  let c := Real.cos (deg * PI / 180)
  let s := Real.sin (deg * PI / 180)
  let o := 1 - c
  Option.some
    ⟨xx + (1 - xx) * c, x * y * o + z * s, x * z * o - y * s, 0,
     x * y * o - z * s, yy + (1 - yy) * c, y * z * o + x * s, 0,
     x * z * o + y * s, y * z * o - x * s, zz + (1 - zz) * c, 0,
     0, 0, 0, 1⟩

/-- Counterexample to claim C7: with the zero axis and angle 180 degrees,
Mat4::rotate does not return the identity matrix (its first entry is the
cosine of about pi, which is negative). -/
theorem C7_counterexample : M16.rotate ⟨0, 0, 0⟩ 180 ≠ identityM := by
  intro h
  have h0 := congrArg M16.x0 h
  have hmag : Vec3.magnitude ⟨0, 0, 0⟩ = 0 := by
    simp [Vec3.magnitude]
  have hnorm : Vec3.normalize ⟨0, 0, 0⟩ = ⟨0, 0, 0⟩ := by
    rw [Vec3.normalize]
    simp [hmag]
  rw [M16.rotate, hnorm] at h0
  simp only [identityM] at h0
  norm_num at h0
  have harg : PI = 3.14159265 := rfl
  rw [harg] at h0
  have hcos : Real.cos 3.14159265 < 0 := by
    have h1 : Real.pi / 2 < 3.14159265 := by
      have := Real.pi_lt_d2
      linarith
    have h2 : (3.14159265 : ℝ) < Real.pi + Real.pi / 2 := by
      have := Real.pi_gt_d6
      linarith
    exact Real.cos_neg_of_pi_div_two_lt_of_lt h1 h2
  rw [h0] at hcos
  norm_num at hcos

/-- Claim C7 as amended: the two cited Mat4::rotate generations behave
differently below the threshold. For every angle and every axis with
magnitude below 0.00001, the math generation defensively normalizes the
axis to zero and returns the uniform diagonal matrix with the cosine of
the converted angle on the three diagonal cells - the identity exactly
when that cosine is one, not for every angle. The renderer generation has
no defensive check: a zero-length axis is divided by its zero magnitude,
producing no well-defined rotation (NaN entries in f32, failure in the
embedding), while the sub-threshold nonzero axis (1e-6, 0, 0) still
produces the genuine full rotation about the x axis. -/
theorem C7_rotate_zero_axis (axis : Vec3) (deg : ℝ) (h : axis.magnitude < 0.00001) :
    M16.rotate axis deg =
      ⟨Real.cos (deg * PI / 180), 0, 0, 0,
       0, Real.cos (deg * PI / 180), 0, 0,
       0, 0, Real.cos (deg * PI / 180), 0,
       0, 0, 0, 1⟩ ∧
    (axis.magnitude = 0 → M16R.rotate axis deg = Option.none) ∧
    (Vec3.magnitude ⟨1 / 1000000, 0, 0⟩ < 0.00001 ∧
      M16R.rotate ⟨1 / 1000000, 0, 0⟩ deg =
        Option.some
          ⟨1, 0, 0, 0,
           0, Real.cos (deg * PI / 180), Real.sin (deg * PI / 180), 0,
           0, -Real.sin (deg * PI / 180), Real.cos (deg * PI / 180), 0,
           0, 0, 0, 1⟩) := by
  refine ⟨?_, ?_, ?_, ?_⟩
  · have hnorm : axis.normalize = ⟨0, 0, 0⟩ := by
      rw [Vec3.normalize]
      simp [h]
    rw [M16.rotate, hnorm]
    norm_num
  · intro hm
    have hn : Real.sqrt (axis.x * axis.x + axis.y * axis.y + axis.z * axis.z) = 0 := hm
    rw [M16R.rotate, if_pos hn]
  · rw [Vec3.magnitude]
    rw [show ((1:ℝ) / 1000000 * (1 / 1000000) + 0 * 0 + 0 * 0) = (1 / 1000000 : ℝ) ^ 2 by ring,
      Real.sqrt_sq (by norm_num : (0:ℝ) ≤ 1 / 1000000)]
    norm_num
  · rw [M16R.rotate]
    have hn : Real.sqrt ((1 / 1000000 : ℝ) * (1 / 1000000) + 0 * 0 + 0 * 0) = 1 / 1000000 := by
      rw [show ((1:ℝ) / 1000000 * (1 / 1000000) + 0 * 0 + 0 * 0) = (1 / 1000000 : ℝ) ^ 2 by ring,
        Real.sqrt_sq (by norm_num : (0:ℝ) ≤ 1 / 1000000)]
    simp only [hn]
    rw [if_neg (by norm_num : ¬((1 / 1000000 : ℝ) = 0))]
    refine congrArg Option.some ?_
    apply M16.ext <;> norm_num

/-- Witness for claim C7 as amended: at the zero axis and angle zero the
math generation gives the identity matrix (cosine of zero being one) and
the renderer generation fails on the zero-magnitude division. -/
theorem C7_rotate_zero_axis_witness :
    Vec3.magnitude ⟨0, 0, 0⟩ < 0.00001 ∧ M16.rotate ⟨0, 0, 0⟩ 0 = identityM ∧
      M16R.rotate ⟨0, 0, 0⟩ 0 = Option.none := by
  have hmag : Vec3.magnitude ⟨0, 0, 0⟩ < 0.00001 := by
    simp [Vec3.magnitude]
    norm_num
  have hmz : Vec3.magnitude (⟨0, 0, 0⟩ : Vec3) = 0 := by
    rw [Vec3.magnitude]
    norm_num
  obtain ⟨h1, h2, _⟩ := C7_rotate_zero_axis ⟨0, 0, 0⟩ 0 hmag
  refine ⟨hmag, ?_, h2 hmz⟩
  rw [h1]
  have harg : (0 : ℝ) * PI / 180 = 0 := by norm_num
  rw [harg, Real.cos_zero]
  rfl

/-- RColor from src/src/renderer/util.rs (rgba components). -/
structure RColor where
  r : ℝ
  g : ℝ
  b : ℝ
  a : ℝ

/-- RCamera from src/src/renderer/util.rs: projection parameters with an
optional target size. -/
structure RCamera where
  cam_type : ℕ
  position : Vec3
  look_at : Vec3
  up : Vec3
  fov_y : ℝ
  near : ℝ
  far : ℝ
  target_size : Option Vec2

/-- Default RCamera from src/src/renderer/util.rs: an orthographic camera at
z 100 looking at the origin with near 0 and far 1000, no target size. -/
def RCamera.default : RCamera :=
  ⟨1, ⟨0, 0, 100⟩, ⟨0, 0, 0⟩, ⟨0, 1, 0⟩, 0, 0, 1000, Option.none⟩

/-- RRotation from src/src/renderer/util.rs: axis-angle or Euler variant. -/
inductive RRotation where
  | AxisAngle (axis : Vec3) (angle : ℝ)
  | Euler (x y z : ℝ)

/-- RObjectUpdate from src/src/renderer/util.rs: the per-frame update value
fed to update_object; the general f32 buffer of 64 entries is embedded as a
function from Fin 64. -/
structure RObjectUpdate where
  translate : Vec3
  rot_spec : RRotation
  scale : Vec3
  visible : Bool
  camera : Option RCamera
  gen_buf : Fin 64 → ℝ
  anim_transforms : List M16

/-- Default RObjectUpdate from src/src/renderer/util.rs: identity transform,
axis-angle rotation of zero degrees about the z axis, opaque defaults and a
zeroed general buffer. -/
def RObjectUpdate.default : RObjectUpdate :=
  ⟨⟨0, 0, 0⟩, RRotation.AxisAngle ⟨0, 0, 1⟩ 0, ⟨1, 1, 1⟩, true, Option.none,
   fun _ => 0, []⟩

/-- RObjectUpdate::with_position from src/src/renderer/util.rs. -/
def RObjectUpdate.with_position (u : RObjectUpdate) (pos : Vec3) : RObjectUpdate :=
  { u with translate := pos }

/-- RObjectUpdate::with_rotation from src/src/renderer/util.rs. -/
def RObjectUpdate.with_rotation (u : RObjectUpdate) (axis : Vec3) (angle_deg : ℝ) :
    RObjectUpdate :=
  { u with rot_spec := RRotation.AxisAngle axis angle_deg }

/-- RObjectUpdate::with_euler_rotation from src/src/renderer/util.rs. -/
def RObjectUpdate.with_euler_rotation (u : RObjectUpdate) (roll pitch yaw : ℝ) :
    RObjectUpdate :=
  { u with rot_spec := RRotation.Euler roll pitch yaw }

/-- RObjectUpdate::with_scale from src/src/renderer/util.rs. -/
def RObjectUpdate.with_scale (u : RObjectUpdate) (scale : Vec3) : RObjectUpdate :=
  { u with scale := scale }

/-- RObjectUpdate::with_camera from src/src/renderer/util.rs. -/
def RObjectUpdate.with_camera (u : RObjectUpdate) (camera : RCamera) : RObjectUpdate :=
  { u with camera := Option.some camera }

/-- RObjectUpdate::with_color from src/src/renderer/util.rs lines 260-266:
writes the four color components into entries 0 to 3 of the general
buffer. -/
def RObjectUpdate.with_color (u : RObjectUpdate) (color : RColor) : RObjectUpdate :=
  { u with gen_buf :=
      Function.update (Function.update (Function.update (Function.update u.gen_buf
        0 color.r) 1 color.g) 2 color.b) 3 color.a }

/-- RObjectUpdate::with_round_border from src/src/renderer/util.rs: writes
the rectangle size and radius into entries 4 to 6 of the general buffer. -/
def RObjectUpdate.with_round_border (u : RObjectUpdate) (rect_size : Vec2) (radius : ℝ) :
    RObjectUpdate :=
  { u with gen_buf :=
      Function.update (Function.update (Function.update u.gen_buf
        4 rect_size.x) 5 rect_size.y) 6 radius }

/-- Result of create_mvp, the 48-float uniform of renderer.rs: flat index i
of the buffer is entry i of the model block for i below 16, of the view
block for i below 32 and of the projection block otherwise. -/
structure MVP48 where
  model : M16
  view : M16
  proj : M16

/-- create_mvp from src/src/renderer/renderer.rs lines 807-850 (the version
in src/src/renderer/root.rs lines 928-971 is textually the same
computation): resolves the camera, composes the model matrix as translate
times (scale times rotation), the view matrix as view_rot times the
negative camera translation, and the projection matrix from the camera
type, with the half sizes taken from the camera target size when present
and otherwise from the window configuration (integer halving). -/
def create_mvp (default_cam : RCamera) (config_w config_h : ℕ) (update : RObjectUpdate) :
    MVP48 :=
  let cam := update.camera.getD default_cam
  let model_t := M16.translate update.translate.x update.translate.y update.translate.z
  let model_r :=
    match update.rot_spec with
    | RRotation.AxisAngle axis angle => M16.rotate axis angle
    | RRotation.Euler x y z => M16.rotate_euler x y z
  let model_s := M16.scale update.scale.x update.scale.y update.scale.z
  let model := M16.multiply model_t (M16.multiply model_s model_r)
  let view_t := M16.translate (-cam.position.x) (-cam.position.y) (-cam.position.z)
  let view_r := M16.view_rot cam.position cam.look_at cam.up
  let view := M16.multiply view_r view_t
  let wh :=
    match cam.target_size with
    | Option.some s => (s.x / 2, s.y / 2)
    | Option.none => (((config_w / 2 : ℕ) : ℝ), ((config_h / 2 : ℕ) : ℝ))
  let w2 := wh.1
  let h2 := wh.2
  let proj :=
    match cam.cam_type with
    | 1 => M16.ortho (-w2) w2 (-h2) h2 cam.near cam.far
    | 2 => M16.perspective cam.fov_y (w2 / h2) cam.near cam.far
    | _ => identityM
  ⟨model, view, proj⟩

/-- create_buf from src/src/renderer/root.rs lines 974-985: the general
uniform starts with the four color components, followed by the rectangle
size and radius when a rectangle size is present. -/
def create_buf (color : RColor) (rect_size : Option Vec2) (rect_radius : ℝ) : List ℝ :=
  [color.r, color.g, color.b, color.a] ++
    (match rect_size with
     | Option.some rs => [rs.x, rs.y, rect_radius]
     | Option.none => [])

/-- Multiplying by the flat identity on the right returns the left factor. -/
theorem M16.multiply_identity_right (a : M16) : M16.multiply a identityM = a := by
  ext <;> simp [M16.multiply, identityM]

/-- Multiplying by the flat identity on the left returns the right factor. -/
theorem M16.multiply_identity_left (b : M16) : M16.multiply identityM b = b := by
  ext <;> simp [M16.multiply, identityM]

/-- Mat4::rotate about the z axis by zero degrees is the identity. -/
theorem M16.rotate_z_zero : M16.rotate ⟨0, 0, 1⟩ 0 = identityM := by
  have hmag : Vec3.magnitude ⟨0, 0, 1⟩ = 1 := by
    rw [Vec3.magnitude]
    norm_num
  have hnorm : Vec3.normalize ⟨0, 0, 1⟩ = ⟨0, 0, 1⟩ := by
    rw [Vec3.normalize]
    rw [hmag]
    norm_num
  rw [M16.rotate, hnorm]
  have harg : (0 : ℝ) * PI / 180 = 0 := by norm_num
  rw [harg, Real.cos_zero, Real.sin_zero]
  ext <;> simp [identityM]

/-- Scaling by one on each axis is the flat identity. -/
theorem M16.scale_one : M16.scale 1 1 1 = identityM := rfl

/-- Concrete update of the end-to-end scenario of claim C2: position
(10, 20, 0), scale (1, 1, 1), color (1, 0, 0, 1), default rotation of zero
degrees, no camera override. -/
def c2Update : RObjectUpdate :=
  ((RObjectUpdate.default.with_position ⟨10, 20, 0⟩).with_scale ⟨1, 1, 1⟩).with_color
    ⟨1, 0, 0, 1⟩

/-- Claim C2: for the end-to-end scenario update (translation (10, 20, 0),
unit scale, zero rotation, color (1, 0, 0, 1)) under the default camera,
the model block of the 48-float MVP uniform has translation entries 12, 13
and 14 equal to (10, 20, 0) for every window configuration, the first four
entries of the general buffer of the update equal (1, 0, 0, 1), and the
root.rs general-buffer builder starts with the same four color floats. -/
theorem C2_end_to_end (cw ch : ℕ) :
    ((create_mvp RCamera.default cw ch c2Update).model.x12 = 10 ∧
     (create_mvp RCamera.default cw ch c2Update).model.x13 = 20 ∧
     (create_mvp RCamera.default cw ch c2Update).model.x14 = 0) ∧
    (c2Update.gen_buf 0 = 1 ∧ c2Update.gen_buf 1 = 0 ∧ c2Update.gen_buf 2 = 0 ∧
     c2Update.gen_buf 3 = 1) ∧
    (create_buf ⟨1, 0, 0, 1⟩ Option.none 0).take 4 = [1, 0, 0, 1] := by
  have hm : (create_mvp RCamera.default cw ch c2Update).model = M16.translate 10 20 0 := by
    show M16.multiply (M16.translate 10 20 0)
      (M16.multiply (M16.scale 1 1 1) (M16.rotate ⟨0, 0, 1⟩ 0)) = M16.translate 10 20 0
    rw [M16.scale_one, M16.rotate_z_zero, M16.multiply_identity_left,
      M16.multiply_identity_right]
  refine ⟨⟨?_, ?_, ?_⟩, ⟨?_, ?_, ?_, ?_⟩, rfl⟩
  · rw [hm]; rfl
  · rw [hm]; rfl
  · rw [hm]; rfl
  all_goals
    simp [c2Update, RObjectUpdate.with_color, RObjectUpdate.with_scale,
      RObjectUpdate.with_position, RObjectUpdate.default, Function.update]

/-- Concrete orthographic camera with target size (200, 100) for claim C4. -/
def c4Camera : RCamera :=
  ⟨1, ⟨0, 0, 100⟩, ⟨0, 0, 0⟩, ⟨0, 1, 0⟩, 0, 0, 1000, Option.some ⟨200, 100⟩⟩

/-- Concrete update carrying the claim C4 camera. -/
def c4Update : RObjectUpdate := RObjectUpdate.default.with_camera c4Camera

/-- Projection block computed for the claim C4 camera: the ortho call gets
top -50 and bottom 50 (half the target height, negated first). -/
theorem c4_proj_eval :
    (create_mvp RCamera.default 800 600 c4Update).proj = M16.ortho (-100) 100 (-50) 50 0 1000 := by
  show M16.ortho (-(200 / 2)) (200 / 2) (-(100 / 2)) (100 / 2) 0 1000 = _
  norm_num

/-- Counterexample to claim C4: for the concrete orthographic camera with
target size (200, 100), near 0 and far 1000, the projection block does not
equal ortho with top +50 and bottom -50 as the claim orders the arguments
(entry 5 of the flat array differs in sign). -/
theorem C4_counterexample :
    (create_mvp RCamera.default 800 600 c4Update).proj ≠ M16.ortho (-100) 100 50 (-50) 0 1000 := by
  rw [c4_proj_eval]
  intro h
  have h5 := congrArg M16.x5 h
  simp only [M16.ortho] at h5
  norm_num at h5

/-- Claim C4 as amended: for every update resolved with an orthographic
camera (type tag 1), the projection block equals ortho with arguments
(-w/2, w/2, -h/2, h/2, near, far) — the third argument (top) is minus half
the height and the fourth (bottom) is plus half the height — where the half
sizes come from the camera target size when supplied and otherwise from the
current window size halved as integers. -/
theorem C4_ortho_projection (default_cam : RCamera) (cw ch : ℕ) (u : RObjectUpdate)
    (h1 : (u.camera.getD default_cam).cam_type = 1) :
    (create_mvp default_cam cw ch u).proj =
      (let cam := u.camera.getD default_cam
       let wh :=
         match cam.target_size with
         | Option.some s => (s.x / 2, s.y / 2)
         | Option.none => (((cw / 2 : ℕ) : ℝ), ((ch / 2 : ℕ) : ℝ))
       M16.ortho (-wh.1) wh.1 (-wh.2) wh.2 cam.near cam.far) := by
  unfold create_mvp
  simp only []
  rw [h1]

/-- Witness for claim C4 as amended, at the concrete camera with target size
(200, 100): the camera is orthographic and the projection block is the
ortho matrix with top -50 and bottom 50. -/
theorem C4_ortho_projection_witness :
    (c4Update.camera.getD RCamera.default).cam_type = 1 ∧
    (create_mvp RCamera.default 800 600 c4Update).proj = M16.ortho (-100) 100 (-50) 50 0 1000 := by
  refine ⟨rfl, ?_⟩
  rw [C4_ortho_projection RCamera.default 800 600 c4Update rfl]
  show M16.ortho (-(200 / 2)) (200 / 2) (-(100 / 2)) (100 / 2) 0 1000 = _
  norm_num

/-- RVertex from src/src/renderer/util.rs. -/
structure RVertex where
  position : Vec3
  uv : Vec2
  normal : Vec3

/-- RVertexAnim from src/src/renderer/util.rs. -/
structure RVertexAnim where
  position : Vec3
  uv : Vec2
  normal : Vec3
  joint_ids : Fin 4 → ℕ
  joint_weights : Fin 4 → ℝ

/-- RTextureId from src/src/renderer/util.rs: the triple of base,
multisample and depth indices into the texture table. -/
structure RTextureId where
  base : ℕ
  msaa : ℕ
  zbuffer : ℕ

/-- Texture formats reaching the texture constructors of renderer.rs:
either the fixed rgba format, the format of the screen surface, or the
depth format. -/
inductive TexFormat where
  | Rgba8Unorm | Screen | Depth24Plus
deriving DecidableEq

/-- Descriptor of one wgpu texture as created by renderer.rs (the fields the
core chooses: extent, sample count and format). -/
structure GTexture where
  width : ℕ
  height : ℕ
  sample_count : ℕ
  fmt : TexFormat

/-- RSDFObjectType from src/src/renderer/util.rs (no Line variant in this
generation). -/
inductive RSDFObjectType where
  | None | Circle | Rectangle | Triangle | RectAngled | Pie
deriving DecidableEq

/-- Conversion of RSDFObjectType into its u32 tag, the From impl of
src/src/renderer/util.rs. -/
def RSDFObjectType.toU32 : RSDFObjectType → ℕ
  | RSDFObjectType.Circle => 1
  | RSDFObjectType.Rectangle => 2
  | RSDFObjectType.Triangle => 3
  | RSDFObjectType.RectAngled => 4
  | _ => 0

/-- RSDFObject from src/src/renderer/util.rs. -/
structure RSDFObject where
  obj_type : RSDFObjectType
  center : Vec2
  radius : ℝ
  rect_size : Vec2
  corner_radius : ℝ
  rot_angle : ℝ
  color : RColor
  line_thickness : ℝ
  tri_size : Vec2 × Vec2

/-- RSDFObjectC from src/src/renderer/util.rs: the C-layout value uploaded
to the GPU for one SDF object. -/
structure RSDFObjectC where
  object_type : ℕ
  radius : ℝ
  center : Vec2
  v2 : Vec2
  corner_radius : ℝ
  rot_angle : ℝ
  onion : ℝ
  v3 : Vec2
  buffer_pad : ℝ
  color : RColor

/-- RSDFObjectC::from of src/src/renderer/util.rs: triangles send their two
relative vertices, other shapes send their rectangle size. -/
def RSDFObjectC.from (a : RSDFObject) : RSDFObjectC :=
  let vv :=
    if a.obj_type = RSDFObjectType.Triangle then (a.tri_size.1, a.tri_size.2)
    else (a.rect_size, Vec2.zero)
  { object_type := a.obj_type.toU32
    radius := a.radius
    center := a.center
    v2 := vv.1
    corner_radius := a.corner_radius
    rot_angle := a.rot_angle
    onion := a.line_thickness
    v3 := vv.2
    buffer_pad := 0
    color := a.color }

/-- SysData as constructed by update_sdf_objects in
src/src/renderer/renderer.rs lines 1310-1316 (the struct declaration of
this generation is not under src/; its fields are read off the
construction site). -/
structure SysData where
  screen : Vec2
  mouse_pos : Vec2
  obj_count : ℕ
  shadow_intensity : ℝ
  light_pos : Vec2

/-- Content of one GPU queue write issued by the embedded renderer. -/
inductive GpuWrite where
  | floats (xs : List ℝ)
  | sys (s : SysData)
  | sdfObjs (xs : List RSDFObjectC)
  | verts (xs : List RVertex)
  | aVerts (xs : List RVertexAnim)
  | indexData (xs : List ℕ)

/-- RObject from src/src/renderer/util.rs: the per-object record of the
object table; GPU resources are identified by allocation numbers. -/
structure RObject where
  visible : Bool
  pipe_id : ℕ
  v_buffer : ℕ
  v_count : ℕ
  max_joints : ℕ
  index_buffer : Option ℕ
  index_count : ℕ
  instances : ℕ
  bind_group0 : ℕ
  buffers0 : List ℕ
  texture1 : Option RTextureId
  texture2 : Option RTextureId

/-- RPipeline from src/src/renderer/util.rs. -/
structure RPipeline where
  pipe : ℕ
  obj_indices : List ℕ
  has_animations : Bool

/-- RObjectSetup from src/src/renderer/util.rs. -/
structure RObjectSetup where
  pipeline_id : ℕ
  vertex_data : List RVertex
  instances : ℕ
  indices : List ℕ
  anim_vertex_data : List RVertexAnim
  texture1_id : Option RTextureId
  texture2_id : Option RTextureId
  max_joints : ℕ

/-- State of the Renderer of src/src/renderer/renderer.rs: the pipeline,
texture and object tables, the default camera and surface configuration,
the contents of GPU buffers by allocation number, and the allocation
counter standing for the device handing out fresh resources. -/
structure RendererState where
  pipelines : List RPipeline
  textures : List GTexture
  objects : List RObject
  default_cam : RCamera
  config_w : ℕ
  config_h : ℕ
  buf_store : ℕ → Option GpuWrite
  next_res : ℕ

/-- Flat list of the sixteen entries of a matrix block. -/
def M16.toList (m : M16) : List ℝ :=
  [m.x0, m.x1, m.x2, m.x3, m.x4, m.x5, m.x6, m.x7,
   m.x8, m.x9, m.x10, m.x11, m.x12, m.x13, m.x14, m.x15]

/-- Flat list of the 48 floats of the MVP uniform, model then view then
projection, as merged by create_mvp. -/
def MVP48.toList (m : MVP48) : List ℝ :=
  m.model.toList ++ m.view.toList ++ m.proj.toList

/-- Queue write of one buffer: record the content under the allocation
number of the buffer. -/
def RendererState.write (st : RendererState) (buf : ℕ) (w : GpuWrite) : RendererState :=
  { st with buf_store := Function.update st.buf_store buf (Option.some w) }

/-- update_object from src/src/renderer/renderer.rs lines 852-887: recompute
the MVP and general uniforms, set the visibility flag of the addressed
object, write both uniforms into the buffers of the object, and when the
object has joint capacity and transforms were supplied, write the packed
joint matrices (transforms beyond the capacity are dropped by the take).
Out-of-range indexing panics in the source and is the failure case here. -/
def update_object (st : RendererState) (obj_id : ℕ) (u : RObjectUpdate) :
    Option RendererState :=
  let mvp := create_mvp st.default_cam st.config_w st.config_h u
  match st.objects.get? obj_id with
  | Option.none => Option.none
  | Option.some obj =>
    match obj.buffers0 with
    | b0 :: b1 :: _ =>
      let store1 := Function.update (Function.update st.buf_store
        b0 (Option.some (GpuWrite.floats mvp.toList)))
        b1 (Option.some (GpuWrite.floats (List.ofFn u.gen_buf)))
      let store2 :=
        if 0 < obj.max_joints then
          match u.anim_transforms with
          | [] => store1
          | _ :: _ =>
            let anim_buffer :=
              (u.anim_transforms.take obj.max_joints).foldl
                (fun acc a => acc ++ a.toList) []
            Function.update store1 b1 (Option.some (GpuWrite.floats anim_buffer))
        else store1
      Option.some
        { st with
            objects := st.objects.set obj_id { obj with visible := u.visible }
            buf_store := store2 }
    | _ => Option.none

/-- add_bind_group0 from src/src/renderer/renderer.rs lines 613-734,
restricted to the resources it returns to the caller: a fresh mvp buffer, a
fresh general buffer, a fresh joints buffer and the bind group; the buffer
list handed back holds mvp and general buffers, plus the joints buffer for
animated pipelines.  (The placeholder texture, views and sampler it also
creates are internal to the bind group and not tracked.) -/
def add_bind_group0 (st : RendererState) (has_animations : Bool) :
    RendererState × ℕ × List ℕ :=
  let mvp_buffer := st.next_res
  let gen_buffer := st.next_res + 1
  let joints_buffer := st.next_res + 2
  let bind_group := st.next_res + 3
  let st1 := { st with next_res := st.next_res + 4 }
  let entries :=
    if has_animations then [mvp_buffer, gen_buffer, joints_buffer]
    else [mvp_buffer, gen_buffer]
  (st1, bind_group, entries)

def addObjCore (st : RendererState) (setup : RObjectSetup) (pipe : RPipeline) :
    RendererState × RObject :=
  let id := st.objects.length
  let v_buffer := st.next_res
  let vlen :=
    if pipe.has_animations then setup.anim_vertex_data.length
    else setup.vertex_data.length
  let vwrite :=
    if pipe.has_animations then GpuWrite.aVerts setup.anim_vertex_data
    else GpuWrite.verts setup.vertex_data
  let st1 := ({ st with next_res := st.next_res + 1 }).write v_buffer vwrite
  let ilen := setup.indices.length
  let ibRes :=
    if 0 < ilen then
      ((({ st1 with next_res := st1.next_res + 1 }).write st1.next_res
          (GpuWrite.indexData setup.indices)), Option.some st1.next_res)
    else (st1, Option.none)
  let st2 := ibRes.1
  let bg := add_bind_group0 st2 pipe.has_animations
  let st3 := bg.1
  let obj : RObject :=
    { visible := true
      pipe_id := setup.pipeline_id
      v_buffer := v_buffer
      v_count := vlen
      max_joints := setup.max_joints
      index_buffer := ibRes.2
      index_count := ilen
      instances := 1
      bind_group0 := bg.2.1
      buffers0 := bg.2.2
      texture1 := setup.texture1_id
      texture2 := setup.texture2_id }
  ({ st3 with
      objects := st3.objects ++ [obj]
      pipelines := st3.pipelines.set setup.pipeline_id
        { pipe with obj_indices := pipe.obj_indices ++ [id] } }, obj)

/-- add_object from src/src/renderer/renderer.rs lines 740-804: allocate and
fill the vertex buffer (animated or static), the index buffer when indices
are present, and bind group 0; push the new object onto the object table
and its index onto the owning pipeline (the allocation and push steps are
collected in addObjCore); then run update_object with the default update,
and return the handle (the prior length of the object table).  A bad
pipeline id panics in the source and is the failure case. -/
def add_object (st : RendererState) (setup : RObjectSetup) :
    Option (RendererState × ℕ) :=
  match st.pipelines.get? setup.pipeline_id with
  | Option.none => Option.none
  | Option.some pipe =>
    let id := st.objects.length
    let core := addObjCore st setup pipe
    match update_object core.1 id RObjectUpdate.default with
    | Option.none => Option.none
    | Option.some st5 => Option.some (st5, id)

/-- Sequence of update_object calls applied in order; any panic aborts. -/
def apply_updates (st : RendererState) (calls : List (ℕ × RObjectUpdate)) :
    Option RendererState :=
  calls.foldlM (fun s c => update_object s c.1 c.2) st

/-- add_texture from src/src/renderer/renderer.rs lines 227-312: the decoded
image is external input (a path that fails to open or decode leaves the
requested size and no data, per the spec the call proceeds); the base
texture, its four-sample msaa companion and the depth buffer are pushed in
that order and the handle carries their indices. -/
def add_texture (st : RendererState) (width height : ℕ) (img : Option (ℕ × ℕ))
    (use_device_format : Bool) : RendererState × RTextureId :=
  let id := st.textures.length
  let tsize := match img with
    | Option.some d => d
    | Option.none => (width, height)
  let tex_format := if use_device_format then TexFormat.Screen else TexFormat.Rgba8Unorm
  let texture : GTexture := ⟨tsize.1, tsize.2, 1, tex_format⟩
  let msaa : GTexture := ⟨tsize.1, tsize.2, 4, TexFormat.Screen⟩
  let zbuffer : GTexture := ⟨tsize.1, tsize.2, 4, TexFormat.Depth24Plus⟩
  ({ st with textures := st.textures ++ [texture, msaa, zbuffer] },
   ⟨id, id + 1, id + 2⟩)

/-- update_sdf_objects from src/src/renderer/renderer.rs lines 1297-1324:
resolve the render object of the SDF pipeline, cap the reported object
count at 100, and write the system data and the converted object list into
the two uniform buffers of that object. -/
def update_sdf_objects (st : RendererState) (pipeline_id : ℕ) (screen_size m_pos : Vec2)
    (shadow_intensity : ℝ) (light_pos : Vec2) (objects : List RSDFObject) :
    Option RendererState :=
  match st.pipelines.get? pipeline_id with
  | Option.none => Option.none
  | Option.some pipe =>
    match pipe.obj_indices.get? 0 with
    | Option.none => Option.none
    | Option.some ridx =>
      match st.objects.get? ridx with
      | Option.none => Option.none
      | Option.some robj =>
        let obj_count := if objects.length < 100 then objects.length else 100
        let sys : SysData :=
          { screen := screen_size
            mouse_pos := m_pos
            obj_count := obj_count
            shadow_intensity := shadow_intensity
            light_pos := light_pos }
        let objs := objects.map RSDFObjectC.from
        match robj.buffers0 with
        | b0 :: b1 :: _ =>
          Option.some ((st.write b0 (GpuWrite.sys sys)).write b1 (GpuWrite.sdfObjs objs))
        | _ => Option.none

/-- Claim C9: add_texture appends exactly three entries to the texture table
(the base texture, its four-sample multisample companion, and its depth
buffer, in that order), returns the handle (n, n+1, n+2) for prior length
n, and leaves every previously existing entry unchanged, so earlier
texture handles keep resolving to their original textures. -/
theorem C9_add_texture_appends (st : RendererState) (w h : ℕ) (img : Option (ℕ × ℕ))
    (udf : Bool) :
    (add_texture st w h img udf).1.textures.length = st.textures.length + 3 ∧
    (add_texture st w h img udf).2 =
      ⟨st.textures.length, st.textures.length + 1, st.textures.length + 2⟩ ∧
    (∀ i, i < st.textures.length →
      (add_texture st w h img udf).1.textures[i]? = st.textures[i]?) ∧
    ((add_texture st w h img udf).1.textures.drop st.textures.length).map
        GTexture.sample_count = [1, 4, 4] ∧
    ((add_texture st w h img udf).1.textures.drop st.textures.length).map GTexture.fmt =
      [if udf then TexFormat.Screen else TexFormat.Rgba8Unorm,
       TexFormat.Screen, TexFormat.Depth24Plus] := by
  have htx : (add_texture st w h img udf).1.textures =
      st.textures ++
        [⟨(match img with | Option.some d => d | Option.none => (w, h)).1,
          (match img with | Option.some d => d | Option.none => (w, h)).2, 1,
          if udf then TexFormat.Screen else TexFormat.Rgba8Unorm⟩,
         ⟨(match img with | Option.some d => d | Option.none => (w, h)).1,
          (match img with | Option.some d => d | Option.none => (w, h)).2, 4,
          TexFormat.Screen⟩,
         ⟨(match img with | Option.some d => d | Option.none => (w, h)).1,
          (match img with | Option.some d => d | Option.none => (w, h)).2, 4,
          TexFormat.Depth24Plus⟩] := rfl
  refine ⟨?_, rfl, ?_, ?_, ?_⟩
  · rw [htx]; simp
  · intro i hi
    rw [htx]
    exact List.getElem?_append_left hi
  · rw [htx, List.drop_left]
    rfl
  · rw [htx, List.drop_left]
    rfl

/-- Concrete empty renderer state with one pipeline, for witnesses. -/
def cSt : RendererState :=
  { pipelines := [⟨0, [], false⟩]
    textures := []
    objects := []
    default_cam := RCamera.default
    config_w := 800
    config_h := 600
    buf_store := fun _ => Option.none
    next_res := 0 }

/-- Witness for claim C9 at the concrete empty renderer state. -/
theorem C9_add_texture_appends_witness :
    (add_texture cSt 32 32 Option.none false).1.textures.length =
      cSt.textures.length + 3 ∧
    (add_texture cSt 32 32 Option.none false).2 = ⟨0, 1, 2⟩ := by
  obtain ⟨h1, h2, _, _, _⟩ := C9_add_texture_appends cSt 32 32 Option.none false
  exact ⟨h1, h2⟩

/-- Claim C10: when update_sdf_objects resolves its render object, the
system-data uniform it writes reports an object count capped at 100: the
count is the number of submitted objects when below 100 and 100 otherwise
(the minimum of the two), so objects beyond the first 100 are never
counted; the converted object list is written to the second uniform
buffer. -/
theorem C10_sdf_obj_count_cap (st : RendererState) (pid : ℕ) (screen m_pos : Vec2)
    (shadow : ℝ) (light : Vec2) (objs : List RSDFObject) (st2 : RendererState)
    (h : update_sdf_objects st pid screen m_pos shadow light objs = Option.some st2) :
    ∃ b0 b1 : ℕ,
      st2 =
        (st.write b0 (GpuWrite.sys
          { screen := screen
            mouse_pos := m_pos
            obj_count := min objs.length 100
            shadow_intensity := shadow
            light_pos := light })).write b1
          (GpuWrite.sdfObjs (objs.map RSDFObjectC.from)) ∧
      min objs.length 100 = (if objs.length < 100 then objs.length else 100) ∧
      min objs.length 100 ≤ 100 := by
  have hmin : (if objs.length < 100 then objs.length else 100) = min objs.length 100 := by
    split <;> omega
  rcases hp : st.pipelines.get? pid with _ | pipe
  · simp only [update_sdf_objects, hp] at h
    exact Option.noConfusion h
  rcases ho : pipe.obj_indices.get? 0 with _ | ridx
  · simp only [update_sdf_objects, hp, ho] at h
    exact Option.noConfusion h
  rcases hr : st.objects.get? ridx with _ | robj
  · simp only [update_sdf_objects, hp, ho, hr] at h
    exact Option.noConfusion h
  rcases hb : robj.buffers0 with _ | ⟨b0, _ | ⟨b1, rest⟩⟩
  · simp only [update_sdf_objects, hp, ho, hr, hb] at h
    exact Option.noConfusion h
  · simp only [update_sdf_objects, hp, ho, hr, hb] at h
    exact Option.noConfusion h
  simp only [update_sdf_objects, hp, ho, hr, hb, Option.some.injEq] at h
  refine ⟨b0, b1, ?_, hmin.symm, min_le_right _ _⟩
  rw [← h, hmin]

/-- Concrete renderer state for witnesses: one pipeline owning object 0,
one object whose uniform slot is buffers 5 and 6. -/
def cStFull : RendererState :=
  { pipelines := [⟨0, [0], false⟩]
    textures := []
    objects := [⟨true, 0, 4, 6, 0, Option.none, 6, 1, 7, [5, 6], Option.none, Option.none⟩]
    default_cam := RCamera.default
    config_w := 800
    config_h := 600
    buf_store := fun _ => Option.none
    next_res := 8 }

/-- Witness for claim C10 at a concrete state and the empty object list. -/
theorem C10_sdf_obj_count_cap_witness :
    ∃ st2, update_sdf_objects cStFull 0 ⟨800, 600⟩ ⟨0, 0⟩ 0 ⟨0, 0⟩ [] = Option.some st2 ∧
      ∃ b0 b1 : ℕ,
        st2 =
          (cStFull.write b0 (GpuWrite.sys
            { screen := ⟨800, 600⟩
              mouse_pos := ⟨0, 0⟩
              obj_count := min ([] : List RSDFObject).length 100
              shadow_intensity := 0
              light_pos := ⟨0, 0⟩ })).write b1
            (GpuWrite.sdfObjs (([] : List RSDFObject).map RSDFObjectC.from)) := by
  refine ⟨_, rfl, ?_⟩
  obtain ⟨b0, b1, heq, _, _⟩ :=
    C10_sdf_obj_count_cap cStFull 0 ⟨800, 600⟩ ⟨0, 0⟩ 0 ⟨0, 0⟩ [] _ rfl
  exact ⟨b0, b1, heq⟩

/-- Erase the visibility flag of an object record, keeping every other
field; two objects agree under this map exactly when update_object could
turn one into the other without touching buffers or layout. -/
def RObject.eraseVisible (o : RObject) : RObject := { o with visible := true }

/-- Setting a list cell to a value that agrees under a map with the value
already there leaves the mapped list unchanged. -/
theorem map_set_of_get? {α β : Type} (l : List α) (n : ℕ) (a b : α) (f : α → β)
    (hget : l.get? n = Option.some b) (hf : f a = f b) :
    (l.set n a).map f = l.map f := by
  induction l generalizing n with
  | nil => simp
  | cons x xs ih =>
      cases n with
      | zero =>
          simp only [List.get?] at hget
          cases hget
          simp [List.set, hf]
      | succ m =>
          simp only [List.get?] at hget
          simp [List.set, ih m hget]


/-- One update_object call preserves the pipeline and texture tables, the
camera and configuration, the allocation counter, and every object field
except the visibility flag. -/
theorem update_object_shape (st : RendererState) (oid : ℕ) (u : RObjectUpdate)
    (st2 : RendererState) (h : update_object st oid u = Option.some st2) :
    st2.pipelines = st.pipelines ∧ st2.textures = st.textures ∧
    st2.default_cam = st.default_cam ∧ st2.config_w = st.config_w ∧
    st2.config_h = st.config_h ∧ st2.next_res = st.next_res ∧
    st2.objects.map RObject.eraseVisible = st.objects.map RObject.eraseVisible := by
  rcases hg : st.objects.get? oid with _ | obj
  · simp only [update_object, hg] at h
    exact Option.noConfusion h
  rcases hb : obj.buffers0 with _ | ⟨b0, _ | ⟨b1, rest⟩⟩
  · simp only [update_object, hg, hb] at h
    exact Option.noConfusion h
  · simp only [update_object, hg, hb] at h
    exact Option.noConfusion h
  simp only [update_object, hg, hb, Option.some.injEq] at h
  subst h
  refine ⟨rfl, rfl, rfl, rfl, rfl, rfl, ?_⟩
  exact map_set_of_get? st.objects oid _ obj RObject.eraseVisible hg
    (by simp [RObject.eraseVisible, hb])

/-- A sequence of update_object calls preserves the pipeline and texture
tables and every object field except the visibility flags. -/
theorem apply_updates_shape (calls : List (ℕ × RObjectUpdate)) (st : RendererState)
    (st2 : RendererState) (h : apply_updates st calls = Option.some st2) :
    st2.pipelines = st.pipelines ∧ st2.textures = st.textures ∧
    st2.objects.map RObject.eraseVisible = st.objects.map RObject.eraseVisible := by
  induction calls generalizing st with
  | nil =>
      simp only [apply_updates, List.foldlM] at h
      cases h
      exact ⟨rfl, rfl, rfl⟩
  | cons c cs ih =>
      have hcons : apply_updates st (c :: cs) =
          (update_object st c.1 c.2).bind (fun s => apply_updates s cs) := rfl
      rcases hu : update_object st c.1 c.2 with _ | stm
      · rw [hcons, hu] at h
        exact Option.noConfusion h
      · rw [hcons, hu] at h
        simp only [Option.some_bind] at h
        obtain ⟨hp, ht, hm⟩ := ih stm h
        obtain ⟨hp2, ht2, _, _, _, _, hm2⟩ := update_object_shape st c.1 c.2 stm hu
        exact ⟨hp.trans hp2, ht.trans ht2, hm.trans hm2⟩


/-- The allocation-and-push step of add_object appends exactly the new
object to the object table. -/
theorem addObjCore_objects (st : RendererState) (setup : RObjectSetup) (pipe : RPipeline) :
    (addObjCore st setup pipe).1.objects = st.objects ++ [(addObjCore st setup pipe).2] := by
  simp only [addObjCore, RendererState.write, add_bind_group0]
  split <;> rfl

/-- The object pushed by add_object is wired to the vertex buffer allocated
at the call, the prior allocation counter of the state. -/
theorem addObjCore_vbuf (st : RendererState) (setup : RObjectSetup) (pipe : RPipeline) :
    (addObjCore st setup pipe).2.v_buffer = st.next_res := by
  simp only [addObjCore]

/-- The handle returned by add_object is the prior length of the object
table, and the new state holds at that handle an object wired to the
vertex buffer allocated at the call (visible and with the same fields as
pushed, up to the visibility flag). -/
theorem add_object_handle (st : RendererState) (setup : RObjectSetup)
    (st1 : RendererState) (hid : ℕ)
    (h : add_object st setup = Option.some (st1, hid)) :
    hid = st.objects.length ∧
    ∃ obj1, st1.objects[hid]? = Option.some obj1 ∧ obj1.v_buffer = st.next_res := by
  rcases hp : st.pipelines.get? setup.pipeline_id with _ | pipe
  · simp only [add_object, hp] at h
    exact Option.noConfusion h
  simp only [add_object, hp] at h
  rcases hu : update_object (addObjCore st setup pipe).1 st.objects.length
      RObjectUpdate.default with _ | st5
  · rw [hu] at h
    exact Option.noConfusion h
  rw [hu] at h
  simp only [Option.some.injEq, Prod.mk.injEq] at h
  obtain ⟨h5, hidEq⟩ := h
  subst h5
  refine ⟨hidEq.symm, ?_⟩
  obtain ⟨_, _, _, _, _, _, hm⟩ :=
    update_object_shape (addObjCore st setup pipe).1 st.objects.length RObjectUpdate.default
      st5 hu
  have hcobj : ((addObjCore st setup pipe).1.objects.map RObject.eraseVisible)[st.objects.length]? =
      Option.some (RObject.eraseVisible (addObjCore st setup pipe).2) := by
    rw [addObjCore_objects]
    rw [List.getElem?_map]
    have hlen : (st.objects ++ [(addObjCore st setup pipe).2])[st.objects.length]? =
        Option.some (addObjCore st setup pipe).2 := by
      rw [List.getElem?_append_right (le_refl _)]
      simp
    rw [hlen]
    rfl
  rw [← hm] at hcobj
  rw [List.getElem?_map] at hcobj
  rcases hobj1 : st5.objects[st.objects.length]? with _ | obj1
  · rw [hobj1] at hcobj
    exact Option.noConfusion hcobj
  rw [hobj1] at hcobj
  simp only [Option.map_some', Option.some.injEq] at hcobj
  refine ⟨obj1, ?_, ?_⟩
  · rw [← hidEq]
    exact hobj1
  · have : (RObject.eraseVisible obj1).v_buffer =
        (RObject.eraseVisible (addObjCore st setup pipe).2).v_buffer := by rw [hcobj]
    simpa [RObject.eraseVisible, addObjCore_vbuf] using this

/-- Claim C3: a handle returned by add_object is the prior object-table
length, and across any subsequent sequence of update_object calls (on this
or any other handle) the handle still resolves to an object carrying the
same underlying vertex buffer, uniform buffer list, index buffer and bind
group: the calls mutate only visibility flags and buffer contents, and
never remove, reorder or reallocate entries of the object or pipeline
tables. -/
theorem C3_handle_stability (st : RendererState) (setup : RObjectSetup)
    (st1 : RendererState) (hid : ℕ) (calls : List (ℕ × RObjectUpdate)) (st2 : RendererState)
    (hadd : add_object st setup = Option.some (st1, hid))
    (hupd : apply_updates st1 calls = Option.some st2) :
    hid = st.objects.length ∧
    st2.pipelines = st1.pipelines ∧
    st2.textures = st1.textures ∧
    st2.objects.map RObject.eraseVisible = st1.objects.map RObject.eraseVisible ∧
    ∃ obj1 obj2,
      st1.objects[hid]? = Option.some obj1 ∧ st2.objects[hid]? = Option.some obj2 ∧
      obj2.v_buffer = obj1.v_buffer ∧ obj1.v_buffer = st.next_res ∧
      obj2.pipe_id = obj1.pipe_id ∧ obj2.buffers0 = obj1.buffers0 ∧
      obj2.index_buffer = obj1.index_buffer ∧ obj2.bind_group0 = obj1.bind_group0 := by
  obtain ⟨hidEq, obj1, hobj1, hvb⟩ := add_object_handle st setup st1 hid hadd
  obtain ⟨hp, ht, hm⟩ := apply_updates_shape calls st1 st2 hupd
  refine ⟨hidEq, hp, ht, hm, ?_⟩
  have hmap1 : (st1.objects.map RObject.eraseVisible)[hid]? =
      Option.some (RObject.eraseVisible obj1) := by
    rw [List.getElem?_map, hobj1]
    rfl
  have hmap2 : (st2.objects.map RObject.eraseVisible)[hid]? =
      Option.some (RObject.eraseVisible obj1) := by
    rw [hm]
    exact hmap1
  rw [List.getElem?_map] at hmap2
  rcases hobj2 : st2.objects[hid]? with _ | obj2
  · rw [hobj2] at hmap2
    exact Option.noConfusion hmap2
  rw [hobj2] at hmap2
  simp only [Option.map_some', Option.some.injEq] at hmap2
  refine ⟨obj1, obj2, hobj1, rfl, ?_, hvb, ?_, ?_, ?_, ?_⟩
  · simpa [RObject.eraseVisible] using congrArg RObject.v_buffer hmap2
  · simpa [RObject.eraseVisible] using congrArg RObject.pipe_id hmap2
  · simpa [RObject.eraseVisible] using congrArg RObject.buffers0 hmap2
  · simpa [RObject.eraseVisible] using congrArg RObject.index_buffer hmap2
  · simpa [RObject.eraseVisible] using congrArg RObject.bind_group0 hmap2

/-- Concrete setup for the claim C3 witness: an empty static object on
pipeline 0. -/
def cSetup : RObjectSetup :=
  ⟨0, [], 1, [], [], Option.none, Option.none, 0⟩

/-- Witness for claim C3: on the concrete one-pipeline state, add_object
returns handle 0 and after an update_object call on that handle the handle
still resolves to an object with the originally allocated vertex buffer. -/
theorem C3_handle_stability_witness :
    ∃ st1 st2 : RendererState,
      add_object cSt cSetup = Option.some (st1, 0) ∧
      apply_updates st1 [(0, RObjectUpdate.default.with_position ⟨1, 2, 3⟩)] =
        Option.some st2 ∧
      st2.pipelines = st1.pipelines ∧
      ∃ obj1 obj2,
        st1.objects[(0 : ℕ)]? = Option.some obj1 ∧
        st2.objects[(0 : ℕ)]? = Option.some obj2 ∧ obj2.v_buffer = obj1.v_buffer := by
  obtain ⟨hidEq, hp, ht, hm, obj1, obj2, h1, h2, hv, _⟩ :=
    C3_handle_stability cSt cSetup _ 0 [(0, RObjectUpdate.default.with_position ⟨1, 2, 3⟩)] _
      rfl rfl
  exact ⟨_, _, rfl, rfl, hp, obj1, obj2, h1, h2, hv⟩

/-- Extensionality for the embedded two dimensional vectors. -/
theorem Vec2.ext_xy {a b : Vec2} (hx : a.x = b.x) (hy : a.y = b.y) : a = b := by
  cases a; cases b; simp_all

/-- Magnitudes are nonnegative. -/
theorem Vec2.mag_nonneg (v : Vec2) : 0 ≤ v.magnitude := Real.sqrt_nonneg _

/-- The squared sum under a magnitude is nonnegative. -/
theorem Vec2.sq_sum_nonneg (v : Vec2) : 0 ≤ v.x * v.x + v.y * v.y := by
  nlinarith [mul_self_nonneg v.x, mul_self_nonneg v.y]

/-- Square of the magnitude recovers the component sum. -/
theorem Vec2.mag_sq (v : Vec2) : v.magnitude ^ 2 = v.x * v.x + v.y * v.y := by
  rw [Vec2.magnitude, Real.sq_sqrt (Vec2.sq_sum_nonneg v)]

/-- Monotonicity of the magnitude in the squared component sums. -/
theorem Vec2.mag_mono_sq {a b : Vec2} (h : a.x * a.x + a.y * a.y ≤ b.x * b.x + b.y * b.y) :
    a.magnitude ≤ b.magnitude := Real.sqrt_le_sqrt h

/-- Magnitude of a scalar multiple. -/
theorem Vec2.mag_smul (v : Vec2) (s : ℝ) : (v * s).magnitude = |s| * v.magnitude := by
  rw [Vec2.smul_def, Vec2.magnitude, Vec2.magnitude,
    show v.x * s * (v.x * s) + v.y * s * (v.y * s) = s ^ 2 * (v.x * v.x + v.y * v.y) by ring,
    Real.sqrt_mul (sq_nonneg s), Real.sqrt_sq_eq_abs]

/-- Magnitude is symmetric under swapping the ends of a difference. -/
theorem Vec2.mag_sub_comm (a b : Vec2) : (a - b).magnitude = (b - a).magnitude := by
  rw [Vec2.sub_def, Vec2.sub_def, Vec2.magnitude, Vec2.magnitude]
  congr 1
  ring

/-- The first component is bounded by the magnitude. -/
theorem Vec2.abs_x_le_mag (v : Vec2) : |v.x| ≤ v.magnitude := by
  rw [Vec2.magnitude, ← Real.sqrt_sq_eq_abs]
  exact Real.sqrt_le_sqrt (by nlinarith [sq_nonneg v.y])

/-- The second component is bounded by the magnitude. -/
theorem Vec2.abs_y_le_mag (v : Vec2) : |v.y| ≤ v.magnitude := by
  rw [Vec2.magnitude, ← Real.sqrt_sq_eq_abs]
  exact Real.sqrt_le_sqrt (by nlinarith [sq_nonneg v.x])

/-- Domination of magnitudes from componentwise domination in absolute
value. -/
theorem Vec2.mag_mono_abs {a b : Vec2} (hx : |a.x| ≤ |b.x|) (hy : |a.y| ≤ |b.y|) :
    a.magnitude ≤ b.magnitude := by
  apply Vec2.mag_mono_sq
  have h1 : a.x * a.x ≤ b.x * b.x := by
    have := mul_self_le_mul_self (abs_nonneg a.x) hx
    simpa [abs_mul_abs_self] using this
  have h2 : a.y * a.y ≤ b.y * b.y := by
    have := mul_self_le_mul_self (abs_nonneg a.y) hy
    simpa [abs_mul_abs_self] using this
  linarith

/-- Triangle inequality for the embedded magnitude. -/
theorem Vec2.mag_add_le (a b : Vec2) : (a + b).magnitude ≤ a.magnitude + b.magnitude := by
  have ha := Vec2.sq_sum_nonneg a
  have hb := Vec2.sq_sum_nonneg b
  have hdot : a.x * b.x + a.y * b.y ≤ a.magnitude * b.magnitude := by
    have h1 : a.magnitude * b.magnitude =
        Real.sqrt ((a.x * a.x + a.y * a.y) * (b.x * b.x + b.y * b.y)) := by
      rw [Vec2.magnitude, Vec2.magnitude, ← Real.sqrt_mul ha]
    have h2 : a.x * b.x + a.y * b.y ≤ Real.sqrt ((a.x * b.x + a.y * b.y) ^ 2) := by
      rw [Real.sqrt_sq_eq_abs]
      exact le_abs_self _
    rw [h1]
    refine h2.trans (Real.sqrt_le_sqrt ?_)
    nlinarith [sq_nonneg (a.x * b.y - a.y * b.x)]
  have ha2 := Vec2.mag_sq a
  have hb2 := Vec2.mag_sq b
  have hsum : (a + b).magnitude ^ 2 ≤ (a.magnitude + b.magnitude) ^ 2 := by
    have hab : (a + b).magnitude ^ 2 = (a.x + b.x) * (a.x + b.x) + (a.y + b.y) * (a.y + b.y) := by
      rw [Vec2.mag_sq, Vec2.add_def]
    rw [hab]
    nlinarith [Vec2.mag_nonneg a, Vec2.mag_nonneg b]
  have hnn : 0 ≤ a.magnitude + b.magnitude :=
    add_nonneg (Vec2.mag_nonneg a) (Vec2.mag_nonneg b)
  nlinarith [Vec2.mag_nonneg (a + b)]

/-- Three-point triangle inequality for differences. -/
theorem Vec2.mag_sub_le (a b c : Vec2) :
    (a - c).magnitude ≤ (a - b).magnitude + (b - c).magnitude := by
  have h : a - c = (a - b) + (b - c) := by
    apply Vec2.ext_xy <;> simp [Vec2.sub_def, Vec2.add_def]
  rw [h]
  exact Vec2.mag_add_le _ _

/-- Reverse triangle inequality for magnitudes. -/
theorem Vec2.mag_sub_mag_le (a b : Vec2) :
    a.magnitude - b.magnitude ≤ (a - b).magnitude := by
  have h : a = (a - b) + b := by
    apply Vec2.ext_xy <;> simp [Vec2.sub_def, Vec2.add_def]
  have := Vec2.mag_add_le (a - b) b
  rw [← h] at this
  linarith

/-- A normalized vector has magnitude at most one (exactly one above the
defensive threshold, zero below it). -/
theorem Vec2.mag_normalize_le_one (v : Vec2) : v.normalize.magnitude ≤ 1 := by
  rw [Vec2.normalize]
  by_cases h : v.magnitude < 0.00001
  · rw [if_pos h]
    simp [Vec2.magnitude]
  · rw [if_neg h]
    push_neg at h
    have hpos : 0 < v.magnitude := lt_of_lt_of_le (by norm_num) h
    have hne : v.magnitude ^ 2 ≠ 0 := by positivity
    have heq : (⟨v.x / v.magnitude, v.y / v.magnitude⟩ : Vec2).magnitude = 1 := by
      rw [Vec2.magnitude,
        show v.x / v.magnitude * (v.x / v.magnitude) + v.y / v.magnitude * (v.y / v.magnitude)
          = (v.x * v.x + v.y * v.y) / v.magnitude ^ 2 by ring,
        ← Vec2.mag_sq, div_self hne, Real.sqrt_one]
    rw [heq]

/-- One-Lipschitz property of a scalar field on the plane, the key
regularity of every signed distance function of the SDF module. -/
def Lip1 (f : Vec2 → ℝ) : Prop :=
  ∀ p q : Vec2, |f p - f q| ≤ (p - q).magnitude

/-- A function is one-Lipschitz once each one-sided difference is bounded
by the distance. -/
theorem lip1_of_both {f : Vec2 → ℝ} (h : ∀ p q, f p - f q ≤ (p - q).magnitude) :
    Lip1 f := by
  intro p q
  rw [abs_sub_le_iff]
  exact ⟨h p q, (Vec2.mag_sub_comm p q) ▸ h q p⟩

/-- Constant fields are one-Lipschitz. -/
theorem lip1_const (c : ℝ) : Lip1 (fun _ => c) := by
  intro p q
  simp [Vec2.mag_nonneg]

/-- The pointwise minimum of one-Lipschitz fields is one-Lipschitz. -/
theorem lip1_min {f g : Vec2 → ℝ} (hf : Lip1 f) (hg : Lip1 g) :
    Lip1 (fun p => min (f p) (g p)) := by
  intro p q
  have h := abs_min_sub_min_le_max (f p) (g p) (f q) (g q)
  exact h.trans (max_le (hf p q) (hg p q))

/-- Subtracting a constant keeps a field one-Lipschitz. -/
theorem lip1_sub_const {f : Vec2 → ℝ} (hf : Lip1 f) (c : ℝ) :
    Lip1 (fun p => f p - c) := by
  intro p q
  simpa using hf p q

/-- Taking absolute values keeps a field one-Lipschitz. -/
theorem lip1_abs {f : Vec2 → ℝ} (hf : Lip1 f) : Lip1 (fun p => |f p|) := by
  intro p q
  exact (abs_abs_sub_abs_le_abs_sub _ _).trans (hf p q)

/-- The circle distance field of signed_dist_to_cir is one-Lipschitz. -/
theorem lip1_cir (c : Vec2) (r : ℝ) : Lip1 (fun p => SdfU.signed_dist_to_cir p c r) := by
  apply lip1_of_both
  intro p q
  show (c - p).magnitude - r - ((c - q).magnitude - r) ≤ (p - q).magnitude
  have h := Vec2.mag_sub_mag_le (c - p) (c - q)
  have he : (c - p) - (c - q) = q - p := by
    apply Vec2.ext_xy <;> simp [Vec2.sub_def]
  rw [he, Vec2.mag_sub_comm q p] at h
  linarith

/-- The clamp to the unit interval lands in the unit interval. -/
theorem clampR_mem (x : ℝ) : 0 ≤ clampR x 0 1 ∧ clampR x 0 1 ≤ 1 := by
  rw [clampR]
  constructor
  · exact le_min (le_max_right x 0) (by norm_num)
  · exact min_le_right _ _

/-- Clamping the quadratic minimizer to the unit interval is optimal among
unit-interval parameters: the clamped point is at least as close to the
unconstrained minimizer as any admissible parameter. -/
theorem clamp_sq_le (tstar t : ℝ) (ht0 : 0 ≤ t) (ht1 : t ≤ 1) :
    (clampR tstar 0 1 - tstar) ^ 2 ≤ (t - tstar) ^ 2 := by
  rw [clampR]
  rcases le_total tstar 0 with h0 | h0
  · rw [max_eq_right h0, min_eq_left (by norm_num : (0 : ℝ) ≤ 1)]
    nlinarith
  · rcases le_total tstar 1 with h1 | h1
    · rw [max_eq_left h0, min_eq_left h1]
      simpa using sq_nonneg (t - tstar)
    · rw [max_eq_left h0, min_eq_right h1]
      nlinarith

/-- Difference against a translated scaled vector, written flat. -/
theorem Vec2.sub_add_smul (q p0 ba : Vec2) (s : ℝ) :
    q - (p0 + ba * s) = (q - p0) - ba * s := by
  apply Vec2.ext_xy <;> simp [Vec2.sub_def, Vec2.add_def, Vec2.smul_def] <;> ring

/-- The clamped-projection distance of signed_dist_to_line is at most the
distance to any point of the segment. -/
theorem line_dist_le_point (point p0 p1 : Vec2) (t : ℝ) (ht0 : 0 ≤ t) (ht1 : t ≤ 1) :
    SdfU.signed_dist_to_line point p0 p1 ≤ (point - (p0 + (p1 - p0) * t)).magnitude := by
  rw [SdfU.signed_dist_to_line]
  rw [Vec2.sub_add_smul]
  set pa := point - p0 with hpa
  set ba := p1 - p0 with hba
  set h := clampR (pa.dot ba / ba.dot ba) 0 1 with hh
  apply Vec2.mag_mono_sq
  have hexp : ∀ s : ℝ, ((pa - ba * s).x * (pa - ba * s).x + (pa - ba * s).y * (pa - ba * s).y)
      = (pa.x * pa.x + pa.y * pa.y) - 2 * s * (pa.dot ba) + s ^ 2 * (ba.dot ba) := by
    intro s
    simp only [Vec2.sub_def, Vec2.smul_def, Vec2.dot]
    ring
  rw [hexp h, hexp t]
  rcases eq_or_ne (ba.dot ba) 0 with hbb | hbb
  · have hbx : ba.x = 0 := by
      have := hbb
      rw [Vec2.dot] at this
      nlinarith [mul_self_nonneg ba.x, mul_self_nonneg ba.y]
    have hby : ba.y = 0 := by
      have := hbb
      rw [Vec2.dot] at this
      nlinarith [mul_self_nonneg ba.x, mul_self_nonneg ba.y]
    have hpb : pa.dot ba = 0 := by
      rw [Vec2.dot, hbx, hby]
      ring
    rw [hbb, hpb]
    ring_nf
    exact le_refl _
  · have hbbpos : 0 < ba.dot ba := by
      rcases lt_or_eq_of_le (by rw [Vec2.dot]; nlinarith [mul_self_nonneg ba.x, mul_self_nonneg ba.y] : (0 : ℝ) ≤ ba.dot ba) with hlt | heq
      · exact hlt
      · exact absurd heq.symm hbb
    have hts : pa.dot ba / ba.dot ba * ba.dot ba = pa.dot ba := div_mul_cancel₀ _ hbb
    have key := mul_le_mul_of_nonneg_left
      (clamp_sq_le (pa.dot ba / ba.dot ba) t ht0 ht1) (le_of_lt hbbpos)
    have key2 : ba.dot ba * h ^ 2 - 2 * h * (pa.dot ba / ba.dot ba * ba.dot ba) ≤
        ba.dot ba * t ^ 2 - 2 * t * (pa.dot ba / ba.dot ba * ba.dot ba) := by
      rw [hh]
      nlinarith [key]
    rw [hts] at key2
    linarith

/-- The segment-distance field of signed_dist_to_line is one-Lipschitz. -/
theorem lip1_line (p0 p1 : Vec2) : Lip1 (fun p => SdfU.signed_dist_to_line p p0 p1) := by
  apply lip1_of_both
  intro p q
  obtain ⟨h0, h1⟩ := clampR_mem ((q - p0).dot (p1 - p0) / (p1 - p0).dot (p1 - p0))
  have hle := line_dist_le_point p p0 p1 _ h0 h1
  have hqq : SdfU.signed_dist_to_line q p0 p1 =
      (q - (p0 + (p1 - p0) *
        clampR ((q - p0).dot (p1 - p0) / (p1 - p0).dot (p1 - p0)) 0 1)).magnitude := by
    rw [SdfU.signed_dist_to_line, Vec2.sub_add_smul]
  have htri := Vec2.mag_sub_le p q (p0 + (p1 - p0) *
    clampR ((q - p0).dot (p1 - p0) / (p1 - p0).dot (p1 - p0)) 0 1)
  rw [← hqq] at htri
  linarith

/-- The sign-flip branch of the source computes the absolute value. -/
theorem if_neg_abs (x : ℝ) : (if x < 0 then -x else x) = |x| := by
  rcases lt_or_ge x 0 with h | h
  · rw [if_pos h, abs_of_neg h]
  · rw [if_neg (not_lt.mpr h), abs_of_nonneg h]

/-- The zero-clamp branch of the source computes the maximum with zero. -/
theorem if_lt_zero_max (x : ℝ) : (if x < 0 then (0 : ℝ) else x) = max x 0 := by
  rcases lt_or_ge x 0 with h | h
  · rw [if_pos h, max_eq_right (le_of_lt h)]
  · rw [if_neg (not_lt.mpr h), max_eq_left h]

/-- Closed form of the axis-aligned rectangle distance: clamped outer
distance plus clamped inner distance over the absolute local offsets. -/
theorem rect_eval (p c s : Vec2) :
    SdfU.signed_dist_to_rect p c s Option.none =
      (⟨max (|p.x - c.x| - s.x) 0, max (|p.y - c.y| - s.y) 0⟩ : Vec2).magnitude +
        min (max (|p.x - c.x| - s.x) (|p.y - c.y| - s.y)) 0 := by
  rw [SdfU.signed_dist_to_rect]
  simp only [Vec2.sub_def, if_neg_abs, if_lt_zero_max]

/-- The clamped outer part of the rectangle distance, as a field of the
query point; used through the case analysis of the box Lipschitz proof. -/
theorem box_outer_lip (c s : Vec2) (p q : Vec2) :
    (⟨max (|p.x - c.x| - s.x) 0, max (|p.y - c.y| - s.y) 0⟩ : Vec2).magnitude -
      (⟨max (|q.x - c.x| - s.x) 0, max (|q.y - c.y| - s.y) 0⟩ : Vec2).magnitude ≤
      (p - q).magnitude := by
  have h := Vec2.mag_sub_mag_le
    (⟨max (|p.x - c.x| - s.x) 0, max (|p.y - c.y| - s.y) 0⟩ : Vec2)
    (⟨max (|q.x - c.x| - s.x) 0, max (|q.y - c.y| - s.y) 0⟩ : Vec2)
  refine h.trans (Vec2.mag_mono_abs ?_ ?_)
  · show |max (|p.x - c.x| - s.x) 0 - max (|q.x - c.x| - s.x) 0| ≤ |(p - q).x|
    refine (abs_max_sub_max_le_abs _ _ _).trans ?_
    have h2 : |p.x - c.x| - s.x - (|q.x - c.x| - s.x) = |p.x - c.x| - |q.x - c.x| := by ring
    rw [h2]
    refine (abs_abs_sub_abs_le_abs_sub _ _).trans ?_
    rw [Vec2.sub_def]
    exact le_of_eq (by congr 1; ring)
  · show |max (|p.y - c.y| - s.y) 0 - max (|q.y - c.y| - s.y) 0| ≤ |(p - q).y|
    refine (abs_max_sub_max_le_abs _ _ _).trans ?_
    have h2 : |p.y - c.y| - s.y - (|q.y - c.y| - s.y) = |p.y - c.y| - |q.y - c.y| := by ring
    rw [h2]
    refine (abs_abs_sub_abs_le_abs_sub _ _).trans ?_
    rw [Vec2.sub_def]
    exact le_of_eq (by congr 1; ring)

/-- Distance from a point to the box through its clamped outer part: the
outer part is at most the distance to any point inside the box. -/
theorem box_outer_le_point (c s p z : Vec2) (hzx : |z.x - c.x| ≤ s.x)
    (hzy : |z.y - c.y| ≤ s.y) :
    (⟨max (|p.x - c.x| - s.x) 0, max (|p.y - c.y| - s.y) 0⟩ : Vec2).magnitude ≤
      (p - z).magnitude := by
  refine Vec2.mag_mono_abs ?_ ?_
  · rw [abs_of_nonneg (le_max_right _ _)]
    refine max_le ?_ (abs_nonneg _)
    have h1 : |p.x - c.x| - s.x ≤ |p.x - c.x| - |z.x - c.x| := by linarith
    refine h1.trans ((abs_sub_abs_le_abs_sub _ _).trans ?_)
    rw [Vec2.sub_def]
    exact le_of_eq (by congr 1; ring)
  · rw [abs_of_nonneg (le_max_right _ _)]
    refine max_le ?_ (abs_nonneg _)
    have h1 : |p.y - c.y| - s.y ≤ |p.y - c.y| - |z.y - c.y| := by linarith
    refine h1.trans ((abs_sub_abs_le_abs_sub _ _).trans ?_)
    rw [Vec2.sub_def]
    exact le_of_eq (by congr 1; ring)

/-- The axis-aligned rectangle distance field is one-Lipschitz. -/
theorem lip1_box (c s : Vec2) : Lip1 (fun p => SdfU.signed_dist_to_rect p c s Option.none) := by
  apply lip1_of_both
  intro p q
  rw [rect_eval, rect_eval]
  have hx : |p.x - q.x| ≤ (p - q).magnitude := by
    have := Vec2.abs_x_le_mag (p - q)
    simpa [Vec2.sub_def] using this
  have hy : |p.y - q.y| ≤ (p - q).magnitude := by
    have := Vec2.abs_y_le_mag (p - q)
    simpa [Vec2.sub_def] using this
  have hG := box_outer_lip c s p q
  have hHp_le : min (max (|p.x - c.x| - s.x) (|p.y - c.y| - s.y)) 0 ≤ 0 := min_le_right _ _
  have hAx : |(|p.x - c.x| - s.x) - (|q.x - c.x| - s.x)| ≤ (p - q).magnitude := by
    have h2 : (|p.x - c.x| - s.x) - (|q.x - c.x| - s.x) = |p.x - c.x| - |q.x - c.x| := by ring
    rw [h2]
    refine (abs_abs_sub_abs_le_abs_sub _ _).trans ?_
    have h3 : p.x - c.x - (q.x - c.x) = p.x - q.x := by ring
    rw [h3]
    exact hx
  have hAy : |(|p.y - c.y| - s.y) - (|q.y - c.y| - s.y)| ≤ (p - q).magnitude := by
    have h2 : (|p.y - c.y| - s.y) - (|q.y - c.y| - s.y) = |p.y - c.y| - |q.y - c.y| := by ring
    rw [h2]
    refine (abs_abs_sub_abs_le_abs_sub _ _).trans ?_
    have h3 : p.y - c.y - (q.y - c.y) = p.y - q.y := by ring
    rw [h3]
    exact hy
  have hHlip : |min (max (|p.x - c.x| - s.x) (|p.y - c.y| - s.y)) 0 -
      min (max (|q.x - c.x| - s.x) (|q.y - c.y| - s.y)) 0| ≤ (p - q).magnitude := by
    refine (abs_min_sub_min_le_max _ _ _ _).trans (max_le ?_ ?_)
    · exact (abs_max_sub_max_le_max _ _ _ _).trans (max_le hAx hAy)
    · simpa using Vec2.mag_nonneg (p - q)
  rcases le_or_lt (max (|q.x - c.x| - s.x) (|q.y - c.y| - s.y)) 0 with hqin | hqout
  · have hAxq : |q.x - c.x| - s.x ≤ 0 := le_trans (le_max_left _ _) hqin
    have hAyq : |q.y - c.y| - s.y ≤ 0 := le_trans (le_max_right _ _) hqin
    have hGq : (⟨max (|q.x - c.x| - s.x) 0, max (|q.y - c.y| - s.y) 0⟩ : Vec2).magnitude = 0 := by
      rw [max_eq_right hAxq, max_eq_right hAyq, Vec2.magnitude]
      simp
    have hHq : min (max (|q.x - c.x| - s.x) (|q.y - c.y| - s.y)) 0 =
        max (|q.x - c.x| - s.x) (|q.y - c.y| - s.y) := min_eq_left hqin
    rcases le_or_lt (max (|p.x - c.x| - s.x) (|p.y - c.y| - s.y)) 0 with hpin | hpout
    · have hAxp : |p.x - c.x| - s.x ≤ 0 := le_trans (le_max_left _ _) hpin
      have hAyp : |p.y - c.y| - s.y ≤ 0 := le_trans (le_max_right _ _) hpin
      have hGp : (⟨max (|p.x - c.x| - s.x) 0, max (|p.y - c.y| - s.y) 0⟩ : Vec2).magnitude = 0 := by
        rw [max_eq_right hAxp, max_eq_right hAyp, Vec2.magnitude]
        simp
      rw [hGp, hGq]
      have := le_abs_self (min (max (|p.x - c.x| - s.x) (|p.y - c.y| - s.y)) 0 -
        min (max (|q.x - c.x| - s.x) (|q.y - c.y| - s.y)) 0)
      linarith
    · have hHp : min (max (|p.x - c.x| - s.x) (|p.y - c.y| - s.y)) 0 = 0 :=
        min_eq_right (le_of_lt hpout)
      rw [hHp, hGq, hHq]
      set m := -(max (|q.x - c.x| - s.x) (|q.y - c.y| - s.y)) with hm
      have hm0 : 0 ≤ m := by rw [hm]; linarith
      have hmx : m ≤ s.x - |q.x - c.x| := by
        rw [hm]
        have := le_max_left (|q.x - c.x| - s.x) (|q.y - c.y| - s.y)
        linarith
      have hmy : m ≤ s.y - |q.y - c.y| := by
        rw [hm]
        have := le_max_right (|q.x - c.x| - s.x) (|q.y - c.y| - s.y)
        linarith
      have hqzx : |q.x - c.x| ≤ s.x := by linarith
      have hqzy : |q.y - c.y| ≤ s.y := by linarith
      have hpx : |p.x - c.x| ≤ |q.x - c.x| + |p.x - q.x| := by
        have h4 : p.x - c.x = (q.x - c.x) + (p.x - q.x) := by ring
        rw [h4]
        exact abs_add _ _
      have hpy : |p.y - c.y| ≤ |q.y - c.y| + |p.y - q.y| := by
        have h4 : p.y - c.y = (q.y - c.y) + (p.y - q.y) := by ring
        rw [h4]
        exact abs_add _ _
      have hmD : m ≤ (p - q).magnitude := by
        by_contra hc
        push_neg at hc
        have hAxp : |p.x - c.x| - s.x < 0 := by linarith
        have hAyp : |p.y - c.y| - s.y < 0 := by linarith
        have hmax : max (|p.x - c.x| - s.x) (|p.y - c.y| - s.y) < 0 := max_lt hAxp hAyp
        linarith
      have hfinal : (⟨max (|p.x - c.x| - s.x) 0, max (|p.y - c.y| - s.y) 0⟩ : Vec2).magnitude
          + m ≤ (p - q).magnitude := by
        rcases eq_or_lt_of_le (Vec2.mag_nonneg (p - q)) with hD0 | hDpos
        · have hm0eq : m = 0 := le_antisymm (hD0 ▸ hmD) hm0
          have hGpq := box_outer_le_point c s p q hqzx hqzy
          linarith
        · set lam := m / (p - q).magnitude with hlam
          have hlam0 : 0 ≤ lam := div_nonneg hm0 (le_of_lt hDpos)
          have hlam1 : lam ≤ 1 := (div_le_one hDpos).mpr hmD
          have hlamD : lam * (p - q).magnitude = m := by
            rw [hlam]
            exact div_mul_cancel₀ _ (ne_of_gt hDpos)
          have hzx : |q.x + (p.x - q.x) * lam - c.x| ≤ s.x := by
            have h5 : q.x + (p.x - q.x) * lam - c.x = (q.x - c.x) + (p.x - q.x) * lam := by ring
            rw [h5]
            refine (abs_add _ _).trans ?_
            rw [abs_mul, abs_of_nonneg hlam0]
            have h6 : |p.x - q.x| * lam ≤ (p - q).magnitude * lam :=
              mul_le_mul_of_nonneg_right hx hlam0
            have h7 : (p - q).magnitude * lam = m := by rw [mul_comm]; exact hlamD
            linarith
          have hzy : |q.y + (p.y - q.y) * lam - c.y| ≤ s.y := by
            have h5 : q.y + (p.y - q.y) * lam - c.y = (q.y - c.y) + (p.y - q.y) * lam := by ring
            rw [h5]
            refine (abs_add _ _).trans ?_
            rw [abs_mul, abs_of_nonneg hlam0]
            have h6 : |p.y - q.y| * lam ≤ (p - q).magnitude * lam :=
              mul_le_mul_of_nonneg_right hy hlam0
            have h7 : (p - q).magnitude * lam = m := by rw [mul_comm]; exact hlamD
            linarith
          have hGpz := box_outer_le_point c s p
            ⟨q.x + (p.x - q.x) * lam, q.y + (p.y - q.y) * lam⟩ hzx hzy
          have hpz : (p - (⟨q.x + (p.x - q.x) * lam, q.y + (p.y - q.y) * lam⟩ : Vec2)).magnitude
              = (p - q).magnitude - m := by
            have h8 : p - (⟨q.x + (p.x - q.x) * lam, q.y + (p.y - q.y) * lam⟩ : Vec2)
                = (p - q) * (1 - lam) := by
              apply Vec2.ext_xy
              · simp only [Vec2.sub_def, Vec2.smul_def]
                ring
              · simp only [Vec2.sub_def, Vec2.smul_def]
                ring
            rw [h8, Vec2.mag_smul, abs_of_nonneg (by linarith : (0:ℝ) ≤ 1 - lam),
              sub_mul, one_mul, hlamD]
          linarith
      linarith
  · have hHq : min (max (|q.x - c.x| - s.x) (|q.y - c.y| - s.y)) 0 = 0 :=
      min_eq_right (le_of_lt hqout)
    rw [hHq]
    linarith

/-- Evaluating the rotated rectangle distance reduces to the axis-aligned
distance at the rotated query point. -/
theorem rect_rot_eval (p c s : Vec2) (r : ℝ) :
    SdfU.signed_dist_to_rect p c s (Option.some r) =
      SdfU.signed_dist_to_rect
        (⟨(p.x - c.x) * Real.cos (-(toRadians r)) - (p.y - c.y) * Real.sin (-(toRadians r)) + c.x,
          (p.y - c.y) * Real.cos (-(toRadians r)) + (p.x - c.x) * Real.sin (-(toRadians r)) + c.y⟩
          : Vec2) c s Option.none := rfl

/-- Rotating two points about the same center preserves their distance. -/
theorem rot_isometry (c : Vec2) (rad : ℝ) (p q : Vec2) :
    ((⟨(p.x - c.x) * Real.cos (-rad) - (p.y - c.y) * Real.sin (-rad) + c.x,
       (p.y - c.y) * Real.cos (-rad) + (p.x - c.x) * Real.sin (-rad) + c.y⟩ : Vec2) -
     (⟨(q.x - c.x) * Real.cos (-rad) - (q.y - c.y) * Real.sin (-rad) + c.x,
       (q.y - c.y) * Real.cos (-rad) + (q.x - c.x) * Real.sin (-rad) + c.y⟩ : Vec2)).magnitude
      = (p - q).magnitude := by
  rw [Vec2.sub_def, Vec2.sub_def, Vec2.magnitude, Vec2.magnitude]
  congr 1
  have hcs := Real.sin_sq_add_cos_sq (-rad)
  linear_combination ((p.x - q.x) * (p.x - q.x) + (p.y - q.y) * (p.y - q.y)) * hcs

/-- The rotated rectangle distance field is one-Lipschitz. -/
theorem lip1_rect_rot (c s : Vec2) (r : ℝ) :
    Lip1 (fun p => SdfU.signed_dist_to_rect p c s (Option.some r)) := by
  intro p q
  simp only []
  rw [rect_rot_eval, rect_rot_eval]
  refine (lip1_box c s _ _).trans ?_
  rw [rot_isometry]

/-- Two-dimensional cross product of two vectors, the scalar z-component. -/
def cr (u v : Vec2) : ℝ := u.x * v.y - u.y * v.x

/-- The orientation scalar o of signed_dist_to_triangle, the cross product
of the first and third edge. -/
def triO (p0 p1 p2 : Vec2) : ℝ := cr (p1 - p0) (p0 - p2)

/-- The running minimum of the three per-edge sign indicators of
signed_dist_to_triangle, in the order the loop accumulates them. -/
def triY (point c p0 p1 p2 : Vec2) : ℝ :=
  min (triO p0 p1 p2 * cr ((point - c) - p2) (p0 - p2))
    (min (triO p0 p1 p2 * cr ((point - c) - p1) (p2 - p1))
      (triO p0 p1 p2 * cr ((point - c) - p0) (p1 - p0)))

/-- The unsigned triangle distance: the minimum of the distances to the
three edges, in the order the loop accumulates them. -/
def triE (point c p0 p1 p2 : Vec2) : ℝ :=
  min (SdfU.signed_dist_to_line (point - c) p2 p0)
    (min (SdfU.signed_dist_to_line (point - c) p1 p2)
      (SdfU.signed_dist_to_line (point - c) p0 p1))

/-- The running-minimum conditional of the Rust loops is the binary min. -/
theorem if_lt_eq_min (a b : ℝ) : (if a < b then a else b) = min a b := by
  rcases lt_or_ge a b with h | h
  · rw [if_pos h, min_eq_left h.le]
  · rw [if_neg (not_lt.mpr h), min_eq_right h]

/-- The reversed running-minimum conditional is also the binary min. -/
theorem if_gt_eq_min (a b : ℝ) : (if a > b then b else a) = min a b := by
  rcases lt_or_ge b a with h | h
  · rw [if_pos h, min_eq_right h.le]
  · rw [if_neg (not_lt.mpr h), min_eq_left h]

/-- The square root of the dot square of a vector is its magnitude. -/
theorem Vec2.sqrt_dot (v : Vec2) : Real.sqrt (v.dot v) = v.magnitude := rfl

/-- The square root distributes over binary minima. -/
theorem sqrt_min_comm (a b : ℝ) : Real.sqrt (min a b) = min (Real.sqrt a) (Real.sqrt b) := by
  rcases le_total a b with h | h
  · rw [min_eq_left h, min_eq_left (Real.sqrt_le_sqrt h)]
  · rw [min_eq_right h, min_eq_right (Real.sqrt_le_sqrt h)]

/-- The distance to a segment is nonnegative: it is a magnitude. -/
theorem sdl_nonneg (w a b : Vec2) : 0 ≤ SdfU.signed_dist_to_line w a b :=
  Vec2.mag_nonneg _

/-- The unsigned triangle distance is nonnegative. -/
theorem triE_nonneg (point c p0 p1 p2 : Vec2) : 0 ≤ triE point c p0 p1 p2 :=
  le_min (sdl_nonneg _ _ _) (le_min (sdl_nonneg _ _ _) (sdl_nonneg _ _ _))

/-- Precomposing with a translation preserves one-Lipschitz fields. -/
theorem lip1_comp_sub {f : Vec2 → ℝ} (hf : Lip1 f) (c : Vec2) :
    Lip1 (fun p => f (p - c)) := by
  intro p q
  have h := hf (p - c) (q - c)
  have heq : (p - c) - (q - c) = p - q := by
    apply Vec2.ext_xy <;> simp [Vec2.sub_def]
  rwa [heq] at h

/-- The unsigned triangle distance is one-Lipschitz in the query point. -/
theorem triE_lip (c p0 p1 p2 : Vec2) : Lip1 (fun point => triE point c p0 p1 p2) := by
  intro p q
  exact (lip1_min (lip1_comp_sub (lip1_line p2 p0) c)
    (lip1_min (lip1_comp_sub (lip1_line p1 p2) c)
      (lip1_comp_sub (lip1_line p0 p1) c))) p q

/-- Evaluation form of the utils triangle distance: the unsigned edge
distance times the sign determined by the orientation indicators. -/
theorem tri_eval (point c p0 p1 p2 : Vec2) :
    SdfU.signed_dist_to_triangle point c p0 p1 p2 =
      triE point c p0 p1 p2 *
        (if 0 < triY point c p0 p1 p2 then -1 else 1) := by
  rw [SdfU.signed_dist_to_triangle]
  simp only [triE, triY, triO, cr, SdfU.signed_dist_to_line, if_lt_eq_min,
    sqrt_min_comm, Vec2.sqrt_dot]

/-- A vector whose dot square vanishes has both components zero. -/
theorem Vec2.dot_self_eq_zero {v : Vec2} (h : v.dot v = 0) : v.x = 0 ∧ v.y = 0 := by
  rw [Vec2.dot] at h
  have hx : v.x * v.x = 0 :=
    le_antisymm (by nlinarith [mul_self_nonneg v.y]) (mul_self_nonneg v.x)
  have hy : v.y * v.y = 0 :=
    le_antisymm (by nlinarith [mul_self_nonneg v.x]) (mul_self_nonneg v.y)
  exact ⟨mul_self_eq_zero.mp hx, mul_self_eq_zero.mp hy⟩

/-- A vector with zero cross product against a nondegenerate vector is a
scalar multiple of it, with the scalar given by the projection ratio. -/
theorem parallel_comp {v e : Vec2} (he : e.dot e ≠ 0) (hc : cr v e = 0) :
    v.x = e.x * (v.dot e / e.dot e) ∧ v.y = e.y * (v.dot e / e.dot e) := by
  rw [cr] at hc
  constructor
  · rw [← mul_div_assoc, eq_comm, div_eq_iff he, Vec2.dot, Vec2.dot]
    linear_combination (-(e.y)) * hc
  · rw [← mul_div_assoc, eq_comm, div_eq_iff he, Vec2.dot, Vec2.dot]
    linear_combination e.x * hc

/-- A point on the supporting line of an edge of a nondegenerate triangle
whose two flanking orientation indicators are nonnegative lies on the edge
segment itself, so its distance to that segment vanishes. -/
theorem line_zero_of_cross (A B C nz : Vec2)
    (ho : cr (B - A) (A - C) ≠ 0)
    (h0 : cr (B - A) (A - C) * cr (nz - A) (B - A) = 0)
    (hnext : 0 ≤ cr (B - A) (A - C) * cr (nz - B) (C - B))
    (hprev : 0 ≤ cr (B - A) (A - C) * cr (nz - C) (A - C)) :
    SdfU.signed_dist_to_line nz A B = 0 := by
  have ho2 : 0 < cr (B - A) (A - C) ^ 2 :=
    lt_of_le_of_ne (sq_nonneg _) (Ne.symm (pow_ne_zero 2 ho))
  have he : (B - A).dot (B - A) ≠ 0 := by
    intro hz
    obtain ⟨hbx, hby⟩ := Vec2.dot_self_eq_zero hz
    apply ho
    simp [cr, hbx, hby]
  have hc : cr (nz - A) (B - A) = 0 := by
    rcases mul_eq_zero.mp h0 with h | h
    · exact absurd h ho
    · exact h
  obtain ⟨hvx, hvy⟩ := parallel_comp he hc
  set t := (nz - A).dot (B - A) / (B - A).dot (B - A) with htdef
  have hnx : nz.x - A.x = (B.x - A.x) * t := by
    have := hvx
    simp only [Vec2.sub_def] at this
    linarith [this]
  have hny : nz.y - A.y = (B.y - A.y) * t := by
    have := hvy
    simp only [Vec2.sub_def] at this
    linarith [this]
  have hcnext : cr (nz - B) (C - B) = (1 - t) * cr (B - A) (A - C) := by
    simp only [cr, Vec2.sub_def]
    linear_combination (C.y - B.y) * hnx - (C.x - B.x) * hny
  have hcprev : cr (nz - C) (A - C) = t * cr (B - A) (A - C) := by
    simp only [cr, Vec2.sub_def]
    linear_combination (A.y - C.y) * hnx - (A.x - C.x) * hny
  have ht1 : t ≤ 1 := by
    rw [hcnext] at hnext
    nlinarith [hnext, ho2, sq (cr (B - A) (A - C))]
  have ht0 : 0 ≤ t := by
    rw [hcprev] at hprev
    nlinarith [hprev, ho2]
  rw [SdfU.signed_dist_to_line]
  have hclamp : clampR ((nz - A).dot (B - A) / (B - A).dot (B - A)) 0 1 = t := by
    rw [← htdef, clampR, max_eq_left ht0, min_eq_left ht1]
  rw [hclamp]
  have hzero : (nz - A) - (B - A) * t = (⟨0, 0⟩ : Vec2) := by
    apply Vec2.ext_xy <;> simp only [Vec2.sub_def, Vec2.smul_def] <;>
      [linarith [hnx]; linarith [hny]]
  rw [hzero]
  simp [Vec2.magnitude]

/-- When one point is strictly inside the triangle sign region and another
is not, the segment between them crosses an edge, so the two unsigned
distances together are bounded by the distance between the points. -/
theorem triE_add_le (c p0 p1 p2 a b : Vec2)
    (ha : 0 < triY a c p0 p1 p2) (hb : triY b c p0 p1 p2 ≤ 0) :
    triE a c p0 p1 p2 + triE b c p0 p1 p2 ≤ (a - b).magnitude := by
  have ho : triO p0 p1 p2 ≠ 0 := by
    intro h0
    rw [triY, h0] at ha
    simp at ha
  have hcont : Continuous (fun t : ℝ => triY (a + (b - a) * t) c p0 p1 p2) := by
    simp only [triY, cr, triO, Vec2.add_def, Vec2.smul_def, Vec2.sub_def]
    fun_prop
  have hg0 : triY (a + (b - a) * (0:ℝ)) c p0 p1 p2 = triY a c p0 p1 p2 := by
    have hpt : a + (b - a) * (0:ℝ) = a := by
      apply Vec2.ext_xy <;> simp [Vec2.add_def, Vec2.smul_def]
    rw [hpt]
  have hg1 : triY (a + (b - a) * (1:ℝ)) c p0 p1 p2 = triY b c p0 p1 p2 := by
    have hpt : a + (b - a) * (1:ℝ) = b := by
      apply Vec2.ext_xy <;> simp [Vec2.add_def, Vec2.smul_def, Vec2.sub_def]
    rw [hpt]
  have hmem : (0:ℝ) ∈ Set.Icc (triY (a + (b - a) * (1:ℝ)) c p0 p1 p2)
      (triY (a + (b - a) * (0:ℝ)) c p0 p1 p2) := by
    rw [hg0, hg1]
    exact ⟨hb, le_of_lt ha⟩
  obtain ⟨ts, hts, hgts⟩ := intermediate_value_Icc' (by norm_num : (0:ℝ) ≤ 1)
    hcont.continuousOn hmem
  set z := a + (b - a) * ts with hz
  have hgts2 : triY z c p0 p1 p2 = 0 := hgts
  have htriYz : min (triO p0 p1 p2 * cr ((z - c) - p2) (p0 - p2))
      (min (triO p0 p1 p2 * cr ((z - c) - p1) (p2 - p1))
        (triO p0 p1 p2 * cr ((z - c) - p0) (p1 - p0))) = 0 := hgts2
  have hY2 : 0 ≤ triO p0 p1 p2 * cr ((z - c) - p2) (p0 - p2) :=
    htriYz ▸ min_le_left _ _
  have hY1 : 0 ≤ triO p0 p1 p2 * cr ((z - c) - p1) (p2 - p1) :=
    htriYz ▸ le_trans (min_le_right _ _) (min_le_left _ _)
  have hY0 : 0 ≤ triO p0 p1 p2 * cr ((z - c) - p0) (p1 - p0) :=
    htriYz ▸ le_trans (min_le_right _ _) (min_le_right _ _)
  have hEnn := triE_nonneg z c p0 p1 p2
  have hEz : triE z c p0 p1 p2 = 0 := by
    rcases min_choice (triO p0 p1 p2 * cr ((z - c) - p2) (p0 - p2))
      (min (triO p0 p1 p2 * cr ((z - c) - p1) (p2 - p1))
        (triO p0 p1 p2 * cr ((z - c) - p0) (p1 - p0))) with hch | hch
    · rw [hch] at htriYz
      have hoeq : cr (p0 - p2) (p2 - p1) = triO p0 p1 p2 := by
        simp only [cr, triO, Vec2.sub_def]
        ring
      have hline : SdfU.signed_dist_to_line (z - c) p2 p0 = 0 := by
        apply line_zero_of_cross p2 p0 p1 (z - c)
        · rw [hoeq]; exact ho
        · rw [hoeq]; exact htriYz
        · rw [hoeq]; exact hY0
        · rw [hoeq]; exact hY1
      have hle2 : triE z c p0 p1 p2 ≤ SdfU.signed_dist_to_line (z - c) p2 p0 :=
        min_le_left _ _
      linarith [hEnn, hle2, le_of_eq hline]
    · rw [hch] at htriYz
      rcases min_choice (triO p0 p1 p2 * cr ((z - c) - p1) (p2 - p1))
        (triO p0 p1 p2 * cr ((z - c) - p0) (p1 - p0)) with hch2 | hch2
      · rw [hch2] at htriYz
        have hoeq : cr (p2 - p1) (p1 - p0) = triO p0 p1 p2 := by
          simp only [cr, triO, Vec2.sub_def]
          ring
        have hline : SdfU.signed_dist_to_line (z - c) p1 p2 = 0 := by
          apply line_zero_of_cross p1 p2 p0 (z - c)
          · rw [hoeq]; exact ho
          · rw [hoeq]; exact htriYz
          · rw [hoeq]; exact hY2
          · rw [hoeq]; exact hY0
        have hle2 : triE z c p0 p1 p2 ≤ SdfU.signed_dist_to_line (z - c) p1 p2 :=
          le_trans (min_le_right _ _) (min_le_left _ _)
        linarith [hEnn, hle2, le_of_eq hline]
      · rw [hch2] at htriYz
        have hline : SdfU.signed_dist_to_line (z - c) p0 p1 = 0 := by
          apply line_zero_of_cross p0 p1 p2 (z - c)
          · exact ho
          · exact htriYz
          · exact hY1
          · exact hY2
        have hle2 : triE z c p0 p1 p2 ≤ SdfU.signed_dist_to_line (z - c) p0 p1 :=
          le_trans (min_le_right _ _) (min_le_right _ _)
        linarith [hEnn, hle2, le_of_eq hline]
  have hEa : triE a c p0 p1 p2 ≤ (a - z).magnitude := by
    have h : |triE a c p0 p1 p2 - triE z c p0 p1 p2| ≤ (a - z).magnitude :=
      triE_lip c p0 p1 p2 a z
    rw [hEz, sub_zero] at h
    exact (le_abs_self _).trans h
  have hEb : triE b c p0 p1 p2 ≤ (b - z).magnitude := by
    have h : |triE b c p0 p1 p2 - triE z c p0 p1 p2| ≤ (b - z).magnitude :=
      triE_lip c p0 p1 p2 b z
    rw [hEz, sub_zero] at h
    exact (le_abs_self _).trans h
  have hmagA : (a - z).magnitude = ts * (b - a).magnitude := by
    have hv : a - z = (b - a) * (-ts) := by
      rw [hz]
      apply Vec2.ext_xy <;> simp [Vec2.sub_def, Vec2.add_def, Vec2.smul_def]
    rw [hv, Vec2.mag_smul, abs_neg, abs_of_nonneg hts.1]
  have hmagB : (b - z).magnitude = (1 - ts) * (b - a).magnitude := by
    have hv : b - z = (b - a) * (1 - ts) := by
      rw [hz]
      apply Vec2.ext_xy <;> simp [Vec2.sub_def, Vec2.add_def, Vec2.smul_def] <;> ring
    rw [hv, Vec2.mag_smul, abs_of_nonneg (by linarith [hts.2] : (0:ℝ) ≤ 1 - ts)]
  have hsum : ts * (b - a).magnitude + (1 - ts) * (b - a).magnitude
      = (b - a).magnitude := by ring
  have hcomm : (a - b).magnitude = (b - a).magnitude := Vec2.mag_sub_comm a b
  linarith [hEa, hEb, hmagA, hmagB, hsum, hcomm]

/-- The signed triangle distance field of signed_dist_to_triangle is
one-Lipschitz in the query point. -/
theorem lip1_triangle (c p0 p1 p2 : Vec2) :
    Lip1 (fun point => SdfU.signed_dist_to_triangle point c p0 p1 p2) := by
  intro a b
  simp only []
  rw [tri_eval, tri_eval]
  have hE : |triE a c p0 p1 p2 - triE b c p0 p1 p2| ≤ (a - b).magnitude :=
    triE_lip c p0 p1 p2 a b
  have hEa := triE_nonneg a c p0 p1 p2
  have hEb := triE_nonneg b c p0 p1 p2
  rcases lt_or_ge 0 (triY a c p0 p1 p2) with hya | hya <;>
    rcases lt_or_ge 0 (triY b c p0 p1 p2) with hyb | hyb
  · rw [if_pos hya, if_pos hyb]
    have h : triE a c p0 p1 p2 * -1 - triE b c p0 p1 p2 * -1
        = -(triE a c p0 p1 p2 - triE b c p0 p1 p2) := by ring
    rw [h, abs_neg]
    exact hE
  · rw [if_pos hya, if_neg (not_lt.mpr hyb)]
    have hmix := triE_add_le c p0 p1 p2 a b hya hyb
    have h : triE a c p0 p1 p2 * -1 - triE b c p0 p1 p2 * 1
        = -(triE a c p0 p1 p2 + triE b c p0 p1 p2) := by ring
    rw [h, abs_neg, abs_of_nonneg (by linarith)]
    exact hmix
  · rw [if_neg (not_lt.mpr hya), if_pos hyb]
    have hmix := triE_add_le c p0 p1 p2 b a hyb hya
    rw [Vec2.mag_sub_comm b a] at hmix
    have h : triE a c p0 p1 p2 * 1 - triE b c p0 p1 p2 * -1
        = triE a c p0 p1 p2 + triE b c p0 p1 p2 := by ring
    rw [h, abs_of_nonneg (by linarith)]
    linarith
  · rw [if_neg (not_lt.mpr hya), if_neg (not_lt.mpr hyb)]
    have h : triE a c p0 p1 p2 * 1 - triE b c p0 p1 p2 * 1
        = triE a c p0 p1 p2 - triE b c p0 p1 p2 := by ring
    rw [h]
    exact hE

/-- A pointwise conditional with a point-independent condition preserves
one-Lipschitz fields. -/
theorem lip1_ite (c : Prop) [Decidable c] {f g : Vec2 → ℝ} (hf : Lip1 f) (hg : Lip1 g) :
    Lip1 (fun p => if c then f p else g p) := by
  intro p q
  by_cases h : c
  · simp only [if_pos h]
    exact hf p q
  · simp only [if_neg h]
    exact hg p q

/-- The corner and border modifier chain of the calculate_sdf loop body
preserves one-Lipschitz base fields. -/
theorem lip1_mods {f : Vec2 → ℝ} (hf : Lip1 f) (cri lt : ℝ) :
    Lip1 (fun p => if lt > 0 then
        SdfU.signed_dist_as_border
          (if cri > 0 then SdfU.signed_dist_with_corner (f p) cri else f p) lt
      else if cri > 0 then SdfU.signed_dist_with_corner (f p) cri else f p) := by
  have hd1 : Lip1 (fun p => if cri > 0 then SdfU.signed_dist_with_corner (f p) cri else f p) := by
    refine lip1_ite _ ?_ hf
    intro p q
    simp only [SdfU.signed_dist_with_corner]
    simpa using (lip1_sub_const hf cri) p q
  refine lip1_ite _ ?_ hd1
  intro p q
  simp only [SdfU.signed_dist_as_border]
  simpa using (lip1_sub_const (lip1_abs hd1) lt) p q

/-- The per-object modified distance of the utils calculate_sdf loop body
is one-Lipschitz in the query point, for every object. -/
theorem lip1_objModDist (maxd : ℝ) (o : SdfU.SDFObject) :
    Lip1 (fun p => SdfU.objModDist maxd p o) := by
  intro p q
  cases htype : o.obj_type <;> simp only [SdfU.objModDist, htype]
  · exact (lip1_mods (lip1_const maxd) o.corner_radius o.line_thickness) p q
  · exact (lip1_mods (lip1_cir o.center o.radius) o.corner_radius o.line_thickness) p q
  · exact (lip1_mods (lip1_box o.center o.rect_size) o.corner_radius o.line_thickness) p q
  · exact (lip1_mods (lip1_triangle o.center ⟨0, 0⟩ o.tri_size.1 o.tri_size.2)
      o.corner_radius o.line_thickness) p q
  · exact (lip1_mods (lip1_rect_rot o.center o.rect_size o.rot_angle)
      o.corner_radius o.line_thickness) p q
  · exact (lip1_mods (lip1_line o.center o.rect_size) o.corner_radius o.line_thickness) p q
  · exact (lip1_mods (lip1_const maxd) o.corner_radius o.line_thickness) p q

/-- The running-minimum fold of calculate_sdf is one-Lipschitz whenever the
accumulated starting field is. -/
theorem lip1_sdf_foldl (maxd : ℝ) (objs : List SdfU.SDFObject) (g : Vec2 → ℝ) (hg : Lip1 g) :
    Lip1 (fun p => objs.foldl (fun sdf obj =>
      let d := SdfU.objModDist maxd p obj
      if d < sdf then d else sdf) (g p)) := by
  induction objs generalizing g with
  | nil =>
      intro p q
      simpa using hg p q
  | cons obj objs ih =>
      intro p q
      simp only [List.foldl_cons]
      refine (ih (fun p => if SdfU.objModDist maxd p obj < g p
        then SdfU.objModDist maxd p obj else g p) ?_) p q
      intro a b
      simp only [if_lt_eq_min]
      exact (lip1_min (lip1_objModDist maxd obj) hg) a b

/-- The utils calculate_sdf field is one-Lipschitz in the query point. -/
theorem lip1_calculate_sdf (maxd : ℝ) (objs : List SdfU.SDFObject) :
    Lip1 (fun p => SdfU.calculate_sdf p maxd objs) := by
  intro p q
  exact (lip1_sdf_foldl maxd objs (fun _ => maxd) (lip1_const maxd)) p q

namespace SdfM

/-- signed_dist_to_cir from src/src/math/sdf.rs. -/
def signed_dist_to_cir (point cir_center : Vec2) (cir_radius : ℝ) : ℝ :=
  let vector := cir_center - point
  vector.magnitude - cir_radius

/-- signed_dist_to_rect from src/src/math/sdf.rs: identical body to the
utils variant. -/
def signed_dist_to_rect (point rect_center rect_size : Vec2) (rect_rot : Option ℝ) : ℝ :=
  let rot_p :=
    match rect_rot with
    | Option.some r =>
        let rad := toRadians r
        let px := (point.x - rect_center.x) * Real.cos (-rad)
          - (point.y - rect_center.y) * Real.sin (-rad) + rect_center.x
        let py := (point.y - rect_center.y) * Real.cos (-rad)
          + (point.x - rect_center.x) * Real.sin (-rad) + rect_center.y
        (⟨px, py⟩ : Vec2)
    | Option.none => point
  let ap0 := rot_p - rect_center
  let apx := if ap0.x < 0 then -ap0.x else ap0.x
  let apy := if ap0.y < 0 then -ap0.y else ap0.y
  let d0 : Vec2 := ⟨apx - rect_size.x, apy - rect_size.y⟩
  let dx := if d0.x < 0 then 0 else d0.x
  let dy := if d0.y < 0 then 0 else d0.y
  let outer := (⟨dx, dy⟩ : Vec2).magnitude
  let inner := min (max d0.x d0.y) 0
  outer + inner

/-- signed_dist_to_triangle from src/src/math/sdf.rs: same unsigned part
as the utils variant, but the sign indicators are scaled by the unit sign
s of the orientation instead of the orientation o itself. -/
def signed_dist_to_triangle (point center p0 p1 p2 : Vec2) : ℝ :=
  let np := point - center
  let e0 := p1 - p0
  let e1 := p2 - p1
  let e2 := p0 - p2
  let v0 := np - p0
  let v1 := np - p1
  let v2 := np - p2
  let pq0 := v0 - e0 * clampR (v0.dot e0 / e0.dot e0) 0 1
  let pq1 := v1 - e1 * clampR (v1.dot e1 / e1.dot e1) 0 1
  let pq2 := v2 - e2 * clampR (v2.dot e2 / e2.dot e2) 0 1
  let s : ℝ := if e0.x * e2.y - e0.y * e2.x > 0 then 1 else -1
  let d1x := pq0.dot pq0
  let d1y := s * (v0.x * e0.y - v0.y * e0.x)
  let d2x := pq1.dot pq1
  let d2y := s * (v1.x * e1.y - v1.y * e1.x)
  let d3x := pq2.dot pq2
  let d3y := s * (v2.x * e2.y - v2.y * e2.x)
  let m1 := if d1x > d2x then d2x else d1x
  let min_dx := if m1 > d3x then d3x else m1
  let n1 := if d1y > d2y then d2y else d1y
  let min_dy := if n1 > d3y then d3y else n1
  let sign : ℝ := if min_dy > 0 then -1 else 1
  Real.sqrt min_dx * sign

/-- signed_dist_with_corner from src/src/math/sdf.rs. -/
def signed_dist_with_corner (sd radius : ℝ) : ℝ := sd - radius

/-- signed_dist_as_border from src/src/math/sdf.rs. -/
def signed_dist_as_border (sd thickness : ℝ) : ℝ := |sd| - thickness

/-- Per-object distance of the calculate_sdf loop body in
src/src/math/sdf.rs lines 71-95: the base distance dispatched on the type
tag (no Line arm in this generation), then the corner and border
modifiers. -/
def objModDist (max_dist : ℝ) (p : Vec2) (o : RSDFObject) : ℝ :=
  let d :=
    match o.obj_type with
    | RSDFObjectType.Circle => signed_dist_to_cir p o.center o.radius
    | RSDFObjectType.Rectangle => signed_dist_to_rect p o.center o.rect_size Option.none
    | RSDFObjectType.RectAngled => signed_dist_to_rect p o.center o.rect_size (Option.some o.rot_angle)
    | RSDFObjectType.Triangle =>
        signed_dist_to_triangle p o.center ⟨0, 0⟩ o.tri_size.1 o.tri_size.2
    | _ => max_dist
  let d1 := if o.corner_radius > 0 then signed_dist_with_corner d o.corner_radius else d
  if o.line_thickness > 0 then signed_dist_as_border d1 o.line_thickness else d1

/-- calculate_sdf from src/src/math/sdf.rs: fold the loop body over the
object list starting from max_dist, keeping the smaller value each step. -/
def calculate_sdf (p : Vec2) (max_dist : ℝ) (objs : List RSDFObject) : ℝ :=
  objs.foldl (fun sdf obj =>
    let d := objModDist max_dist p obj
    if d < sdf then d else sdf) max_dist

end SdfM

/-- Abstract form of the sign difference between the two triangle
variants: the two sign conditionals agree whenever the indicators sum to
the orientation. -/
theorem tri_sign_eq (X o c0 c1 c2 : ℝ) (hsum : c0 + c1 + c2 = o) :
    X * (if 0 < min ((if 0 < o then (1:ℝ) else -1) * c2)
        (min ((if 0 < o then (1:ℝ) else -1) * c1) ((if 0 < o then (1:ℝ) else -1) * c0))
      then (-1:ℝ) else 1) =
    X * (if 0 < min (o * c2) (min (o * c1) (o * c0)) then (-1:ℝ) else 1) := by
  congr 1
  have hiff : (0 < min ((if 0 < o then (1:ℝ) else -1) * c2)
      (min ((if 0 < o then (1:ℝ) else -1) * c1) ((if 0 < o then (1:ℝ) else -1) * c0))) ↔
      (0 < min (o * c2) (min (o * c1) (o * c0))) := by
    simp only [lt_min_iff]
    rcases lt_trichotomy o 0 with hneg | hzero | hpos
    · rw [if_neg (not_lt.mpr hneg.le)]
      constructor
      · rintro ⟨h2, h1, h0⟩
        exact ⟨by nlinarith, by nlinarith, by nlinarith⟩
      · rintro ⟨h2, h1, h0⟩
        exact ⟨by nlinarith, by nlinarith, by nlinarith⟩
    · subst hzero
      constructor
      · rintro ⟨h2, h1, h0⟩
        rw [if_neg (lt_irrefl 0)] at h0 h1 h2
        exfalso
        nlinarith
      · rintro ⟨h2, h1, h0⟩
        rw [zero_mul] at h2
        exact absurd h2 (lt_irrefl 0)
    · rw [if_pos hpos]
      constructor
      · rintro ⟨h2, h1, h0⟩
        exact ⟨by nlinarith, by nlinarith, by nlinarith⟩
      · rintro ⟨h2, h1, h0⟩
        exact ⟨by nlinarith, by nlinarith, by nlinarith⟩
  exact if_congr hiff rfl rfl

/-- The math and utils triangle distances agree at every input. -/
theorem sdtM_eq_sdtU (point c p0 p1 p2 : Vec2) :
    SdfM.signed_dist_to_triangle point c p0 p1 p2 =
      SdfU.signed_dist_to_triangle point c p0 p1 p2 := by
  rw [SdfM.signed_dist_to_triangle, SdfU.signed_dist_to_triangle]
  simp only [if_lt_eq_min]
  refine tri_sign_eq _ _ _ _ _ ?_
  simp only [Vec2.sub_def]
  ring

/-- The per-object modified distance of the math calculate_sdf loop body
is one-Lipschitz in the query point, for every object. -/
theorem lip1_objModDistM (maxd : ℝ) (o : RSDFObject) :
    Lip1 (fun p => SdfM.objModDist maxd p o) := by
  have htri : Lip1 (fun p =>
      SdfM.signed_dist_to_triangle p o.center ⟨0, 0⟩ o.tri_size.1 o.tri_size.2) := by
    intro a b
    simp only [sdtM_eq_sdtU]
    exact (lip1_triangle o.center ⟨0, 0⟩ o.tri_size.1 o.tri_size.2) a b
  intro p q
  cases htype : o.obj_type <;> simp only [SdfM.objModDist, htype]
  · exact (lip1_mods (lip1_const maxd) o.corner_radius o.line_thickness) p q
  · exact (lip1_mods (lip1_cir o.center o.radius) o.corner_radius o.line_thickness) p q
  · exact (lip1_mods (lip1_box o.center o.rect_size) o.corner_radius o.line_thickness) p q
  · exact (lip1_mods htri o.corner_radius o.line_thickness) p q
  · exact (lip1_mods (lip1_rect_rot o.center o.rect_size o.rot_angle)
      o.corner_radius o.line_thickness) p q
  · exact (lip1_mods (lip1_const maxd) o.corner_radius o.line_thickness) p q

/-- The running-minimum fold of the math calculate_sdf is one-Lipschitz
whenever the accumulated starting field is. -/
theorem lip1_sdf_foldlM (maxd : ℝ) (objs : List RSDFObject) (g : Vec2 → ℝ) (hg : Lip1 g) :
    Lip1 (fun p => objs.foldl (fun sdf obj =>
      let d := SdfM.objModDist maxd p obj
      if d < sdf then d else sdf) (g p)) := by
  induction objs generalizing g with
  | nil =>
      intro p q
      simpa using hg p q
  | cons obj objs ih =>
      intro p q
      simp only [List.foldl_cons]
      refine (ih (fun p => if SdfM.objModDist maxd p obj < g p
        then SdfM.objModDist maxd p obj else g p) ?_) p q
      intro a b
      simp only [if_lt_eq_min]
      exact (lip1_min (lip1_objModDistM maxd obj) hg) a b

/-- The math calculate_sdf field is one-Lipschitz in the query point. -/
theorem lip1_calculate_sdfM (maxd : ℝ) (objs : List RSDFObject) :
    Lip1 (fun p => SdfM.calculate_sdf p maxd objs) := by
  intro p q
  exact (lip1_sdf_foldlM maxd objs (fun _ => maxd) (lip1_const maxd)) p q

/-- State of the sphere-tracing loop of ray_march_dist: the current point,
the SDF sample at that point, and the accumulated ray distance. -/
structure RayState where
  p : Vec2
  sdf : ℝ
  ray_dist : ℝ

/-- One unconditional iteration body of the ray_march_dist loop over an
abstract distance field F: step along the direction by the current SDF
sample, resample, accumulate. -/
def rayStepF (F : Vec2 → ℝ) (ndir : Vec2) (st : RayState) : RayState :=
  let p := st.p + ndir * st.sdf
  let sdf := F p
  ⟨p, sdf, st.ray_dist + sdf⟩

/-- One guarded iteration of the ray_march_dist loop: run the body when
the while condition holds, otherwise leave the state unchanged. -/
def rayGStepF (F : Vec2 → ℝ) (ndir : Vec2) (max_dist : ℝ) (st : RayState) : RayState :=
  if st.ray_dist < max_dist ∧ st.sdf > 0.999 then rayStepF F ndir st else st

/-- The state before the loop of ray_march_dist: sample at the origin and
start the accumulated distance at that sample. -/
def rayInitF (F : Vec2 → ℝ) (origin : Vec2) : RayState :=
  ⟨origin, F origin, F origin⟩

/-- The state of the ray_march_dist loop after n guarded iterations. -/
def rayTraceF (F : Vec2 → ℝ) (origin ndir : Vec2) (max_dist : ℝ) : ℕ → RayState
  | 0 => rayInitF F origin
  | Nat.succ n => rayGStepF F ndir max_dist (rayTraceF F origin ndir max_dist n)

/-- The SDF sample stored in the loop state is always the field value at
the stored point. -/
theorem rayTraceF_sdf_inv (F : Vec2 → ℝ) (origin ndir : Vec2) (max_dist : ℝ) :
    ∀ n, (rayTraceF F origin ndir max_dist n).sdf
      = F (rayTraceF F origin ndir max_dist n).p := by
  intro n
  induction n with
  | zero => rfl
  | succ n ih =>
      show (rayGStepF F ndir max_dist _).sdf = F (rayGStepF F ndir max_dist _).p
      rw [rayGStepF]
      by_cases h : (rayTraceF F origin ndir max_dist n).ray_dist < max_dist ∧
          (rayTraceF F origin ndir max_dist n).sdf > 0.999
      · rw [if_pos h]
        rfl
      · rw [if_neg h]
        exact ih

/-- Over a one-Lipschitz field and a direction of magnitude at most one,
the accumulated ray distance never decreases between loop iterations. -/
theorem rayTraceF_mono (F : Vec2 → ℝ) (origin ndir : Vec2) (max_dist : ℝ)
    (hF : Lip1 F) (hnd : ndir.magnitude ≤ 1) (n : ℕ) :
    (rayTraceF F origin ndir max_dist n).ray_dist
      ≤ (rayTraceF F origin ndir max_dist (n + 1)).ray_dist := by
  have hinv := rayTraceF_sdf_inv F origin ndir max_dist n
  show _ ≤ (rayGStepF F ndir max_dist (rayTraceF F origin ndir max_dist n)).ray_dist
  rw [rayGStepF]
  by_cases h : (rayTraceF F origin ndir max_dist n).ray_dist < max_dist ∧
      (rayTraceF F origin ndir max_dist n).sdf > 0.999
  · rw [if_pos h]
    show _ ≤ (rayTraceF F origin ndir max_dist n).ray_dist
      + F ((rayTraceF F origin ndir max_dist n).p
        + ndir * (rayTraceF F origin ndir max_dist n).sdf)
    have hlip : |F ((rayTraceF F origin ndir max_dist n).p
          + ndir * (rayTraceF F origin ndir max_dist n).sdf)
        - F (rayTraceF F origin ndir max_dist n).p|
        ≤ (((rayTraceF F origin ndir max_dist n).p
          + ndir * (rayTraceF F origin ndir max_dist n).sdf)
            - (rayTraceF F origin ndir max_dist n).p).magnitude :=
      hF _ _
    have hdiff : ((rayTraceF F origin ndir max_dist n).p
        + ndir * (rayTraceF F origin ndir max_dist n).sdf)
          - (rayTraceF F origin ndir max_dist n).p
        = ndir * (rayTraceF F origin ndir max_dist n).sdf := by
      apply Vec2.ext_xy <;> simp [Vec2.sub_def, Vec2.add_def, Vec2.smul_def]
    rw [hdiff, Vec2.mag_smul] at hlip
    have hpos : (0:ℝ) < (rayTraceF F origin ndir max_dist n).sdf := by
      have := h.2
      norm_num at this ⊢
      linarith
    rw [abs_of_pos hpos] at hlip
    have hmul : (rayTraceF F origin ndir max_dist n).sdf * ndir.magnitude
        ≤ (rayTraceF F origin ndir max_dist n).sdf * 1 :=
      mul_le_mul_of_nonneg_left hnd hpos.le
    have habs := abs_le.mp hlip
    rw [hinv] at *
    linarith [habs.1, habs.2]
  · rw [if_neg h]

/-- If the while condition has held at every iteration up to n, the
accumulated ray distance has grown by more than the epsilon threshold at
each of them. -/
theorem rayTraceF_lb (F : Vec2 → ℝ) (origin ndir : Vec2) (max_dist : ℝ) :
    ∀ n, (∀ m, m ≤ n → (rayTraceF F origin ndir max_dist m).ray_dist < max_dist ∧
        (rayTraceF F origin ndir max_dist m).sdf > 0.999) →
      0.999 * ((n : ℝ) + 1) ≤ (rayTraceF F origin ndir max_dist n).ray_dist := by
  intro n
  induction n with
  | zero =>
      intro h
      have h0 := (h 0 (le_refl 0)).2
      have hray : (rayTraceF F origin ndir max_dist 0).ray_dist
          = (rayTraceF F origin ndir max_dist 0).sdf := rfl
      rw [hray]
      push_cast
      linarith [h0]
  | succ n ih =>
      intro h
      have hlbn := ih (fun m hm => h m (le_trans hm (Nat.le_succ n)))
      have hcn := h n (Nat.le_succ n)
      have hstep : rayTraceF F origin ndir max_dist (n + 1)
          = rayStepF F ndir (rayTraceF F origin ndir max_dist n) := by
        show rayGStepF F ndir max_dist _ = _
        rw [rayGStepF, if_pos hcn]
      have hsdf := (h (n + 1) (le_refl _)).2
      rw [hstep] at hsdf ⊢
      push_cast
      show 0.999 * ((n : ℝ) + 1 + 1)
        ≤ (rayTraceF F origin ndir max_dist n).ray_dist
          + F ((rayTraceF F origin ndir max_dist n).p
            + ndir * (rayTraceF F origin ndir max_dist n).sdf)
      have hsdf2 : F ((rayTraceF F origin ndir max_dist n).p
          + ndir * (rayTraceF F origin ndir max_dist n).sdf) > 0.999 := hsdf
      push_cast at hlbn
      linarith [hsdf2, hlbn]

/-- The while condition of ray_march_dist eventually fails: the loop of
the sphere tracer terminates on every input even without an iteration
cap. -/
theorem rayTraceF_exits (F : Vec2 → ℝ) (origin ndir : Vec2) (max_dist : ℝ) :
    ∃ n, ¬((rayTraceF F origin ndir max_dist n).ray_dist < max_dist ∧
      (rayTraceF F origin ndir max_dist n).sdf > 0.999) := by
  by_contra hc
  push_neg at hc
  obtain ⟨n, hn⟩ := exists_nat_gt (max_dist / 0.999)
  have hlb := rayTraceF_lb F origin ndir max_dist n (fun m _ => hc m)
  have hub := (hc n).1
  rw [div_lt_iff₀ (by norm_num : (0:ℝ) < 0.999)] at hn
  linarith [hlb, hub, hn]

/-- A state failing the while condition is left unchanged by any number of
remaining loop passes. -/
theorem rayGStepF_fixed (F : Vec2 → ℝ) (ndir : Vec2) (max_dist : ℝ) (st : RayState)
    (h : ¬(st.ray_dist < max_dist ∧ st.sdf > 0.999)) :
    rayGStepF F ndir max_dist st = st := by
  rw [rayGStepF, if_neg h]

namespace SdfU

/-- The while loop of ray_march_dist in src/src/utils/sdf.rs, with the
fuel argument counting the iterations remaining under the cap of 99999:
each pass checks the while condition and runs the loop body. -/
def rayLoop (ndir : Vec2) (max_dist : ℝ) (objs : List SDFObject) :
    ℕ → RayState → RayState
  | 0, st => st
  | Nat.succ n, st =>
      if st.ray_dist < max_dist ∧ st.sdf > 0.999 then
        rayLoop ndir max_dist objs n
          (rayStepF (fun p => calculate_sdf p max_dist objs) ndir st)
      else st

/-- ray_march_dist from src/src/utils/sdf.rs: normalize the direction, run
the capped while loop from the initial sample, then clamp the returned
accumulated distance to max_dist. -/
def ray_march_dist (origin dir : Vec2) (max_dist : ℝ) (objs : List SDFObject) : ℝ :=
  let ndir := dir.normalize
  let st := rayLoop ndir max_dist objs 99999
    (rayInitF (fun p => calculate_sdf p max_dist objs) origin)
  if st.ray_dist > max_dist then max_dist else st.ray_dist

/-- The loop state of the utils ray_march_dist after n iterations. -/
def rayTrace (origin dir : Vec2) (max_dist : ℝ) (objs : List SDFObject) (n : ℕ) : RayState :=
  rayTraceF (fun p => calculate_sdf p max_dist objs) origin dir.normalize max_dist n

end SdfU

/-- The fuelled loop agrees with iterating the guarded step. -/
theorem rayLoop_eq_iterate (ndir : Vec2) (max_dist : ℝ) (objs : List SdfU.SDFObject) :
    ∀ (n : ℕ) (st : RayState), SdfU.rayLoop ndir max_dist objs n st
      = (rayGStepF (fun p => SdfU.calculate_sdf p max_dist objs) ndir max_dist)^[n] st := by
  intro n
  induction n with
  | zero => intro st; rfl
  | succ n ih =>
      intro st
      rw [SdfU.rayLoop, Function.iterate_succ_apply]
      by_cases h : st.ray_dist < max_dist ∧ st.sdf > 0.999
      · rw [if_pos h, ih, rayGStepF, if_pos h]
      · rw [if_neg h, rayGStepF, if_neg h, Function.iterate_fixed (rayGStepF_fixed _ _ _ _ h)]

/-- The iteration-indexed trace agrees with iterating the guarded step
from the initial sample. -/
theorem rayTraceF_eq_iterate (F : Vec2 → ℝ) (origin ndir : Vec2) (max_dist : ℝ) :
    ∀ n, rayTraceF F origin ndir max_dist n
      = (rayGStepF F ndir max_dist)^[n] (rayInitF F origin) := by
  intro n
  induction n with
  | zero => rfl
  | succ n ih =>
      show rayGStepF F ndir max_dist _ = _
      rw [ih, Function.iterate_succ_apply']

namespace SdfM

/-- The loop state of the math ray_march_dist after n iterations. -/
def rayTrace (origin dir : Vec2) (max_dist : ℝ) (objs : List RSDFObject) (n : ℕ) : RayState :=
  rayTraceF (fun p => calculate_sdf p max_dist objs) origin dir.normalize max_dist n

/-- Exit semantics of the uncapped while loop of ray_march_dist in
src/src/math/sdf.rs: the call returns out exactly when the loop reaches a
state failing the while condition whose accumulated distance is out. Once
the condition fails the guarded trace stays constant, so the exit value is
unique when it exists. -/
def rayExit (origin dir : Vec2) (max_dist : ℝ) (objs : List RSDFObject) (out : ℝ) : Prop :=
  ∃ n, ¬((rayTrace origin dir max_dist objs n).ray_dist < max_dist ∧
      (rayTrace origin dir max_dist objs n).sdf > 0.999) ∧
    out = (rayTrace origin dir max_dist objs n).ray_dist

end SdfM

/-- C6: ray_march_dist terminates on every input: in both generations of
the sphere tracer the while condition eventually fails (accumulated
distance reaches max_dist or the SDF sample drops to the epsilon
threshold), even without invoking the utils iteration cap, so both the
capped utils loop and the uncapped math loop are total. -/
theorem C6_termination (origin dir : Vec2) (max_dist : ℝ)
    (uobjs : List SdfU.SDFObject) (mobjs : List RSDFObject) :
    (∃ n, ¬((SdfU.rayTrace origin dir max_dist uobjs n).ray_dist < max_dist ∧
        (SdfU.rayTrace origin dir max_dist uobjs n).sdf > 0.999)) ∧
    (∃ out, SdfM.rayExit origin dir max_dist mobjs out) := by
  constructor
  · exact rayTraceF_exits _ origin dir.normalize max_dist
  · obtain ⟨n, hn⟩ := rayTraceF_exits (fun p => SdfM.calculate_sdf p max_dist mobjs)
      origin dir.normalize max_dist
    exact ⟨(rayTraceF (fun p => SdfM.calculate_sdf p max_dist mobjs)
      origin dir.normalize max_dist n).ray_dist, n, hn, rfl⟩

/-- C5 (amended): in both generations of ray_march_dist the accumulated
ray distance is non-decreasing from each loop iteration to the next, and
the utils variant clamps its return value to at most max_dist and returns
exactly the clamped accumulated distance of its capped loop; the math
variant returns its accumulated distance unclamped, which can exceed
max_dist. -/
theorem C5_ray_march (origin dir : Vec2) (max_dist : ℝ)
    (uobjs : List SdfU.SDFObject) (mobjs : List RSDFObject) (n : ℕ) :
    (SdfU.rayTrace origin dir max_dist uobjs n).ray_dist
      ≤ (SdfU.rayTrace origin dir max_dist uobjs (n + 1)).ray_dist ∧
    (SdfM.rayTrace origin dir max_dist mobjs n).ray_dist
      ≤ (SdfM.rayTrace origin dir max_dist mobjs (n + 1)).ray_dist ∧
    SdfU.ray_march_dist origin dir max_dist uobjs ≤ max_dist ∧
    SdfU.ray_march_dist origin dir max_dist uobjs
      = (if (SdfU.rayTrace origin dir max_dist uobjs 99999).ray_dist > max_dist
        then max_dist else (SdfU.rayTrace origin dir max_dist uobjs 99999).ray_dist) := by
  refine ⟨?_, ?_, ?_, ?_⟩
  · exact rayTraceF_mono _ origin dir.normalize max_dist
      (lip1_calculate_sdf max_dist uobjs) (Vec2.mag_normalize_le_one dir) n
  · exact rayTraceF_mono _ origin dir.normalize max_dist
      (lip1_calculate_sdfM max_dist mobjs) (Vec2.mag_normalize_le_one dir) n
  · rw [SdfU.ray_march_dist]
    by_cases h : (SdfU.rayLoop dir.normalize max_dist uobjs 99999
        (rayInitF (fun p => SdfU.calculate_sdf p max_dist uobjs) origin)).ray_dist > max_dist
    · rw [if_pos h]
    · rw [if_neg h]
      push_neg at h
      exact h
  · rw [SdfU.ray_march_dist]
    rw [SdfU.rayTrace, rayTraceF_eq_iterate, rayLoop_eq_iterate]

/-- Concrete scene for the ray-march cap counterexample: a circle of
radius 1 centered four units behind the origin on the march axis. -/
def cexObj : RSDFObject :=
  { obj_type := RSDFObjectType.Circle, center := ⟨0, -4⟩, radius := 1,
    rect_size := ⟨0, 0⟩, corner_radius := 0, rot_angle := 0,
    color := ⟨0, 0, 0, 0⟩, line_thickness := 0, tri_size := (⟨0, 0⟩, ⟨0, 0⟩) }

/-- The scene field at the origin evaluates to three. -/
theorem cex_F0 : SdfM.calculate_sdf ⟨0, 0⟩ 10 [cexObj] = 3 := by
  rw [SdfM.calculate_sdf]
  simp only [List.foldl_cons, List.foldl_nil, SdfM.objModDist, cexObj,
    SdfM.signed_dist_to_cir, Vec2.sub_def, Vec2.magnitude]
  norm_num
  rw [show ((16:ℝ) = 4 ^ 2) by norm_num, Real.sqrt_sq (by norm_num : (0:ℝ) ≤ 4)]
  norm_num

/-- The scene field three units up the axis evaluates to six. -/
theorem cex_F3 : SdfM.calculate_sdf ⟨0, 3⟩ 10 [cexObj] = 6 := by
  rw [SdfM.calculate_sdf]
  simp only [List.foldl_cons, List.foldl_nil, SdfM.objModDist, cexObj,
    SdfM.signed_dist_to_cir, Vec2.sub_def, Vec2.magnitude]
  norm_num
  rw [show ((49:ℝ) = 7 ^ 2) by norm_num, Real.sqrt_sq (by norm_num : (0:ℝ) ≤ 7)]
  norm_num

/-- Nine units up the axis the raw circle distance exceeds max_dist, so
the scene field caps at max_dist. -/
theorem cex_F9 : SdfM.calculate_sdf ⟨0, 9⟩ 10 [cexObj] = 10 := by
  rw [SdfM.calculate_sdf]
  simp only [List.foldl_cons, List.foldl_nil, SdfM.objModDist, cexObj,
    SdfM.signed_dist_to_cir, Vec2.sub_def, Vec2.magnitude]
  norm_num
  rw [show ((169:ℝ) = 13 ^ 2) by norm_num, Real.sqrt_sq (by norm_num : (0:ℝ) ≤ 13)]
  norm_num

/-- The march direction normalizes to itself. -/
theorem cex_nd : (⟨0, 1⟩ : Vec2).normalize = ⟨0, 1⟩ := by
  rw [Vec2.normalize]
  simp only [Vec2.magnitude]
  norm_num

/-- The math loop state before any iteration of the counterexample march. -/
theorem cex_t0 : SdfM.rayTrace ⟨0, 0⟩ ⟨0, 1⟩ 10 [cexObj] 0 = ⟨⟨0, 0⟩, 3, 3⟩ := by
  rw [SdfM.rayTrace]
  show rayInitF _ _ = _
  rw [rayInitF]
  simp only [cex_F0]

/-- The math loop state after one iteration of the counterexample march. -/
theorem cex_t1 : SdfM.rayTrace ⟨0, 0⟩ ⟨0, 1⟩ 10 [cexObj] 1 = ⟨⟨0, 3⟩, 6, 9⟩ := by
  have h : SdfM.rayTrace ⟨0, 0⟩ ⟨0, 1⟩ 10 [cexObj] 1
      = rayGStepF (fun p => SdfM.calculate_sdf p 10 [cexObj])
        (⟨0, 1⟩ : Vec2).normalize 10 (SdfM.rayTrace ⟨0, 0⟩ ⟨0, 1⟩ 10 [cexObj] 0) := rfl
  rw [h, cex_t0, cex_nd, rayGStepF,
    if_pos (by norm_num : (3:ℝ) < 10 ∧ (3:ℝ) > 0.999), rayStepF]
  have hp : (⟨0, 0⟩ : Vec2) + (⟨0, 1⟩ : Vec2) * (3:ℝ) = ⟨0, 3⟩ := by
    rw [Vec2.smul_def, Vec2.add_def]
    norm_num
  simp only [hp, cex_F3]
  norm_num

/-- The math loop state after two iterations of the counterexample march:
the accumulated distance reaches 19. -/
theorem cex_t2 : SdfM.rayTrace ⟨0, 0⟩ ⟨0, 1⟩ 10 [cexObj] 2 = ⟨⟨0, 9⟩, 10, 19⟩ := by
  have h : SdfM.rayTrace ⟨0, 0⟩ ⟨0, 1⟩ 10 [cexObj] 2
      = rayGStepF (fun p => SdfM.calculate_sdf p 10 [cexObj])
        (⟨0, 1⟩ : Vec2).normalize 10 (SdfM.rayTrace ⟨0, 0⟩ ⟨0, 1⟩ 10 [cexObj] 1) := rfl
  rw [h, cex_t1, cex_nd, rayGStepF,
    if_pos (by norm_num : (9:ℝ) < 10 ∧ (6:ℝ) > 0.999), rayStepF]
  have hp : (⟨0, 3⟩ : Vec2) + (⟨0, 1⟩ : Vec2) * (6:ℝ) = ⟨0, 9⟩ := by
    rw [Vec2.smul_def, Vec2.add_def]
    norm_num
  simp only [hp, cex_F9]
  norm_num

/-- C5 is refuted as stated for the math generation: marching up the axis
past a small circle, the uncapped, unclamped ray_march_dist of
src/src/math/sdf.rs exits its loop with accumulated distance 19 on a call
whose max_dist is 10, so the returned value exceeds max_dist. -/
theorem C5_counterexample :
    SdfM.rayExit ⟨0, 0⟩ ⟨0, 1⟩ 10 [cexObj] 19 ∧ (10:ℝ) < 19 := by
  refine ⟨⟨2, ?_, ?_⟩, by norm_num⟩
  · rw [cex_t2]
    norm_num
  · rw [cex_t2]
